import Mathlib

/-!
Verification development for the kml-cadastre-download backend.

The per-state parcel-identifier parsers (`backend/app/parsers/{nsw,qld,sa,vic}.py`)
and the ArcGIS client logic (`backend/app/arcgis.py`) are shallowly embedded here.
Python strings are modelled as `List Char` (inputs are ASCII); each Python regular
expression used by the source is compiled by hand into an equivalent deterministic
scanner (the relevant backtracking behaviour was worked out pattern by pattern and
is noted at each definition).  Fallible Python code (raising `ValueError` etc.) is
modelled with `Except`.  All definitions are executable; recursion that consumes
more than one character per step uses an explicit fuel argument (initialised to the
string length, which is a strict upper bound on the number of steps) so that every
function reduces definitionally.
-/

namespace Cadastre

/-- The ASCII single-quote character `'`. -/
def qc : Char := Char.ofNat 39

/-- The ASCII backslash character. -/
def bsl : Char := Char.ofNat 92

/-- The ASCII tab character. -/
def tab : Char := Char.ofNat 9

/-- The ASCII newline character. -/
def nl : Char := Char.ofNat 10

/-- Convert a Lean string literal to the `List Char` representation used throughout. -/
def strL (s : String) : List Char := s.data

/-- Python `\s` on ASCII: space, tab, newline, carriage return, vertical tab, form feed. -/
def isPySpace (c : Char) : Bool :=
  c = ' ' || c.toNat = 9 || c.toNat = 10 || c.toNat = 13 || c.toNat = 11 || c.toNat = 12

/-- ASCII `[A-Z]`. -/
def isUpperAZ (c : Char) : Bool := 65 ≤ c.toNat && c.toNat ≤ 90

/-- ASCII `[a-z]`. -/
def isLowerAZ (c : Char) : Bool := 97 ≤ c.toNat && c.toNat ≤ 122

/-- ASCII `[0-9]`. -/
def isDigitC (c : Char) : Bool := 48 ≤ c.toNat && c.toNat ≤ 57

/-- ASCII `[A-Z0-9]`. -/
def isAlnumUp (c : Char) : Bool := isUpperAZ c || isDigitC c

/-- ASCII `[A-Za-z0-9]` (used by case-insensitive character classes). -/
def isAlnumCI (c : Char) : Bool := isUpperAZ c || isLowerAZ c || isDigitC c

/-- Python regex word character `\w` on ASCII: letters, digits, underscore. -/
def isWordC (c : Char) : Bool := isAlnumCI c || c = '_'

/-- Python `str.upper` on ASCII characters. -/
def upChar (c : Char) : Char :=
  if isLowerAZ c then Char.ofNat (c.toNat - 32) else c

/-- Python `str.strip()`: drop leading and trailing whitespace. -/
def pyStrip (l : List Char) : List Char :=
  ((l.dropWhile isPySpace).reverse.dropWhile isPySpace).reverse

/-- Split on every character satisfying `p`, keeping empty pieces
(the callers filter empties, matching the Python list comprehensions). -/
def splitPredAux (p : Char → Bool) (acc : List Char) : List Char → List (List Char)
  | [] => [acc.reverse]
  | c :: rest =>
    if p c then acc.reverse :: splitPredAux p [] rest
    else splitPredAux p (c :: acc) rest

/-- Split a string on every character satisfying `p`, keeping empty pieces. -/
def splitPred (p : Char → Bool) (l : List Char) : List (List Char) :=
  splitPredAux p [] l

/-- Python `re.split` on a character class with `+` (split on maximal runs) followed
by dropping empty pieces, which is equivalent to single-character splitting plus the
same filter. -/
def splitRunsNE (p : Char → Bool) (l : List Char) : List (List Char) :=
  (splitPred p l).filter (fun t => t ≠ [])

/-- Replace each maximal run of whitespace by a single space: `re.sub(r"\s+", " ", s)`. -/
def collapseSpacesAux : Bool → List Char → List Char
  | _, [] => []
  | inRun, c :: rest =>
    if isPySpace c then
      if inRun then collapseSpacesAux true rest
      else ' ' :: collapseSpacesAux true rest
    else c :: collapseSpacesAux false rest

/-- Replace each maximal whitespace run by one space. -/
def collapseSpaces (l : List Char) : List Char := collapseSpacesAux false l

/-- Replace each maximal run of characters satisfying `p` by a single space,
modelling `re.sub(r"[…]+", " ", s)` for a character class. -/
def replaceRunsAux (p : Char → Bool) : Bool → List Char → List Char
  | _, [] => []
  | inRun, c :: rest =>
    if p c then
      if inRun then replaceRunsAux p true rest
      else ' ' :: replaceRunsAux p true rest
    else c :: replaceRunsAux p false rest

/-- Replace each maximal run of characters satisfying `p` by a single space. -/
def replaceRuns (p : Char → Bool) (l : List Char) : List Char :=
  replaceRunsAux p false l

/-- Boolean prefix test on character lists. -/
def listIsPre : List Char → List Char → Bool
  | [], _ => true
  | _ :: _, [] => false
  | a :: as, b :: rest => a = b && listIsPre as rest

/-- Word-boundary test for the position before the scanner head: there is a `\b`
here iff there is no previous character or the previous character is not a word
character (the scanner only attempts word-initial matches, so the head is a word
character whenever this is consulted). -/
def boundaryBefore : Option Char → Bool
  | none => true
  | some p => !isWordC p

/-- After a candidate word match, `\b` requires the next character (if any) to be a
non-word character. -/
def boundaryAfter : List Char → Bool
  | [] => true
  | c :: _ => !isWordC c

/-- One scanning pass of `re.sub(rf"\b{word}\b", repl, s)` for a fixed literal word:
fuelled left-to-right scan; at each position with a preceding boundary, if the word
occurs and is followed by a boundary it is replaced and scanning resumes after the
replacement (whose last character becomes the context for the next boundary test),
exactly as the Python engine continues after non-overlapping substitutions. -/
def replWordAux (w repl : List Char) : Nat → Option Char → List Char → List Char
  | 0, _, l => l
  | _ + 1, _, [] => []
  | fuel + 1, prev, c :: rest =>
    if boundaryBefore prev && listIsPre w (c :: rest)
        && boundaryAfter ((c :: rest).drop w.length) then
      repl ++ replWordAux w repl fuel (repl.getLastD ' ') ((c :: rest).drop w.length)
    else
      c :: replWordAux w repl fuel (some c) rest

/-- `re.sub(rf"\b{word}\b", repl, s)` for a literal `word` (assumed nonempty). -/
def replWord (w repl : List Char) (l : List Char) : List Char :=
  replWordAux w repl l.length none l

/-- First maximal element of a nonempty list under a lexicographic `(Nat × Nat)` key,
matching Python `max(xs, key=…)` which keeps the earliest maximum. -/
def keyGt (a b : Nat × Nat) : Bool :=
  a.1 > b.1 || (a.1 = b.1 && a.2 > b.2)

/-- Python `max(xs, key=key)`: earliest element with the maximal key. -/
def maxByFirst (key : List Char → Nat × Nat) : List (List Char) → Option (List Char)
  | [] => none
  | x :: xs => some (xs.foldl (fun best t => if keyGt (key t) (key best) then t else best) x)

/-- Number of ASCII digits in a token (`sum(ch.isdigit() for ch in t)`). -/
def digitCount (t : List Char) : Nat := (t.filter isDigitC).length

/-- Interpret a nonempty all-digit token as a natural number (Python `int`). -/
def digitsToNat (l : List Char) : Nat :=
  l.foldl (fun a c => a * 10 + (c.toNat - 48)) 0

/-- Decimal representation of a natural number (Python `str` on a nonnegative int). -/
def natToChars (n : Nat) : List Char := (toString n).data

/-! ### Data model (`backend/app/models.py`) -/

/-- `ParcelState` enum. -/
inductive ParcelState
  | NSW | QLD | SA | VIC
deriving DecidableEq, Repr

/-- `ParsedParcel` pydantic model: canonical id plus optional extracted components
(`section` is spelled `sec` because `section` is a Lean keyword). -/
structure ParsedParcel where
  id : List Char
  state : ParcelState
  raw : List Char
  lot : Option (List Char) := none
  sec : Option (List Char) := none
  plan : Option (List Char) := none
  volume : Option (List Char) := none
  folio : Option (List Char) := none
deriving DecidableEq, Repr

/-- `MalformedEntry` pydantic model. -/
structure MalformedEntry where
  raw : List Char
  error : List Char
deriving DecidableEq, Repr

/-! ### NSW parser (`backend/app/parsers/nsw.py`)

The regexes are hand-compiled.  Because every character class involved excludes the
separator that follows it, each quantified group can only match its maximal run, so
the scanners below are deterministic translations of the backtracking regexes (the
one place where genuine backtracking matters, the optional `/(section)` group of the
single-slash pattern, is handled by trying both alternatives, which are mutually
exclusive because the section branch forces an extra `/` in the remainder). -/

namespace Nsw

/-- `_LOT_SECTION_PATTERN = ^[A-Z0-9]+$`. -/
def lotSectionPat (s : List Char) : Bool := s ≠ [] && s.all isAlnumUp

/-- `_PLAN_PATTERN = ^[A-Z]+[A-Z0-9]*$`: head is a letter, the rest alphanumeric. -/
def planPat : List Char → Bool
  | [] => false
  | c :: rest => isUpperAZ c && rest.all isAlnumUp

/-- `_normalize_lot_section`: strip all whitespace after upper-casing, then check
`_LOT_SECTION_PATTERN`; raises `ValueError` otherwise. -/
def _normalize_lot_section (value : List Char) (label : List Char) :
    Except (List Char) (List Char) :=
  let cleaned := (value.map upChar).filter (fun c => !isPySpace c)
  if lotSectionPat cleaned then .ok cleaned
  else .error (strL "Invalid NSW " ++ label ++ strL " " ++ [qc] ++ value ++ [qc])

/-- `_normalize_plan`. -/
def _normalize_plan (value : List Char) : Except (List Char) (List Char) :=
  let cleaned := (value.map upChar).filter (fun c => !isPySpace c)
  if planPat cleaned then .ok cleaned
  else .error (strL "Invalid NSW plan " ++ [qc] ++ value ++ [qc])

/-- `_canonical_id(lot, plan, section)`: returns `(identifier, lot, section, plan)`. -/
def _canonical_id (lot plan : List Char) (sect : Option (List Char)) :
    Except (List Char) (List Char × List Char × Option (List Char) × List Char) := do
  let lotClean ← _normalize_lot_section lot (strL "lot")
  let secClean ← match sect with
    | some s => (_normalize_lot_section s (strL "section")).map some
    | none => pure none
  let planClean ← _normalize_plan plan
  match secClean with
  | some s => .ok (lotClean ++ ['/'] ++ s ++ strL "//" ++ planClean, lotClean, some s, planClean)
  | none => .ok (lotClean ++ strL "//" ++ planClean, lotClean, none, planClean)

/-- `_join_plan_tokens`: split off the plan from the token tail, re-joining a split
alpha/numeric plan such as `["DP", "30493"]`. -/
def _join_plan_tokens (tokens : List (List Char)) :
    Except (List Char) (List (List Char) × List Char) :=
  match tokens with
  | [] => .error (strL "Missing NSW plan value")
  | _ :: _ =>
    let remaining := tokens.dropLast
    let suffix := tokens.getLastD []
    match remaining.getLast? with
    | some prev =>
      if suffix ≠ [] && suffix.all isDigitC && prev ≠ [] && prev.all isUpperAZ then
        .ok (remaining.dropLast, prev ++ suffix)
      else
        .ok (remaining, suffix)
    | none => .ok (remaining, suffix)

/-- `re.sub(r"\b([A-Z]{2,})\s+(\d+)\b", r"\1\2", s)` attempted at the current head:
a maximal run of at least two uppercase letters, a nonempty whitespace run, a
maximal digit run, then a word boundary.  Returns the glued text and the rest. -/
def glueStep (l : List Char) : Option (List Char × List Char) :=
  let letters := l.takeWhile isUpperAZ
  if letters.length < 2 then none else
  let r1 := l.drop letters.length
  let sp := r1.takeWhile isPySpace
  if sp = [] then none else
  let r2 := r1.drop sp.length
  let ds := r2.takeWhile isDigitC
  if ds = [] then none else
  let r3 := r2.drop ds.length
  if boundaryAfter r3 then some (letters ++ ds, r3) else none

/-- Fuelled scan applying `glueStep` at every position with a preceding word
boundary (the substitution is non-overlapping and resumes after each replacement). -/
def glueAux : Nat → Option Char → List Char → List Char
  | 0, _, l => l
  | _ + 1, _, [] => []
  | fuel + 1, prev, c :: rest =>
    if boundaryBefore prev then
      match glueStep (c :: rest) with
      | some (txt, r3) => txt ++ glueAux fuel (some (txt.getLastD '0')) r3
      | none => c :: glueAux fuel (some c) rest
    else c :: glueAux fuel (some c) rest

/-- The whole-string glue substitution. -/
def glue (l : List Char) : List Char := glueAux l.length none l

/-- `_CANONICAL_PATTERN = ^(lot)(?:/(section))?//(plan)$` with `lot`,`section`
in `[A-Z0-9]+` and `plan` in `[A-Z]+[A-Z0-9]*`. -/
def canonicalMatch (s : List Char) :
    Option (List Char × Option (List Char) × List Char) :=
  let lot := s.takeWhile isAlnumUp
  if lot = [] then none else
  match s.drop lot.length with
  | '/' :: '/' :: plan => if planPat plan then some (lot, none, plan) else none
  | '/' :: r1 =>
    let sect := r1.takeWhile isAlnumUp
    if sect = [] then none else
    match r1.drop sect.length with
    | '/' :: '/' :: plan => if planPat plan then some (lot, some sect, plan) else none
    | _ => none
  | _ => none

/-- `_SINGLE_SLASH_PATTERN = ^(lot)(?:/(section))?/(plan)$`. -/
def singleSlashMatch (s : List Char) :
    Option (List Char × Option (List Char) × List Char) :=
  let lot := s.takeWhile isAlnumUp
  if lot = [] then none else
  match s.drop lot.length with
  | '/' :: r1 =>
    let sect := r1.takeWhile isAlnumUp
    if sect ≠ [] && listIsPre ['/'] (r1.drop sect.length)
        && planPat (r1.drop (sect.length + 1)) then
      some (lot, some sect, r1.drop (sect.length + 1))
    else if planPat r1 then some (lot, none, r1) else none
  | _ => none

/-- `_LOT_PLAN_SENTENCE = ^LOT\s+(lot)(?:\s+(?:SEC|SECTION)\s+(section))?\s+(plan)$`
(case-insensitive; the input is already upper-cased and whitespace-collapsed, so the
match is decided on the space-separated token list). -/
def sentenceMatch (s : List Char) :
    Option (List Char × Option (List Char) × List Char) :=
  match splitPred (fun c => c = ' ') s with
  | [kw, lot, plan] =>
    if kw = strL "LOT" && lotSectionPat lot && planPat plan then
      some (lot, none, plan)
    else none
  | [kw, lot, secKw, sect, plan] =>
    if kw = strL "LOT" && lotSectionPat lot
        && (secKw = strL "SEC" || secKw = strL "SECTION")
        && lotSectionPat sect && planPat plan then
      some (lot, some sect, plan)
    else none
  | _ => none

/-- `_NOISE_TOKENS`. -/
def noiseTokens : List (List Char) :=
  [strL "LOT", strL "LOTS", strL "SEC", strL "SECTION", strL "SECT", strL "PLAN"]

/-- `_parse_fragment(raw)`: normalisation pipeline, the three patterns in priority
order, then the token fallback. -/
def _parse_fragment (raw : List Char) :
    Except (List Char) (List Char × List Char × Option (List Char) × List Char) :=
  let upper0 := (pyStrip raw).map upChar
  if upper0 = [] then .error (strL "Empty NSW parcel token") else
  let u1 := upper0.map (fun c => if c = bsl then '/' else c)
  let u2 := replWord (strL "SECTION") (strL "SEC") u1
  let u3 := collapseSpaces u2
  let u4 := glue u3
  match canonicalMatch u4 with
  | some (lot, sect, plan) => _canonical_id lot plan sect
  | none =>
  match singleSlashMatch u4 with
  | some (lot, sect, plan) => _canonical_id lot plan sect
  | none =>
  match sentenceMatch u4 with
  | some (lot, sect, plan) => _canonical_id lot plan sect
  | none =>
    let tokens :=
      splitRunsNE (fun c => isPySpace c || c = ',' || c = ';' || c = '/') u4
    let tokens := tokens.filter (fun t => !noiseTokens.contains t)
    if tokens = [] then .error (strL "Unable to parse NSW lot/plan") else
    match _join_plan_tokens tokens with
    | .error e => .error e
    | .ok (tokens, plan) =>
      if tokens = [] then .error (strL "Missing NSW lot value") else
      let lot := tokens.headD []
      let sect := tokens[1]?
      _canonical_id lot plan sect

/-- `normalize_nsw_identifier`. -/
def normalize_nsw_identifier (raw : List Char) :
    Except (List Char) (List Char × List Char × Option (List Char) × List Char) :=
  _parse_fragment raw

/-- The lot-range pattern `^(start)-(?:\s*)(end)//(plan)$` of `parse_nsw`
(case-insensitive `[A-Z0-9]+` groups, `plan` is `.+`). -/
def rangeMatch (l : List Char) : Option (List Char × List Char × List Char) :=
  let s1 := l.takeWhile isAlnumCI
  if s1 = [] then none else
  match l.drop s1.length with
  | '-' :: r1 =>
    let r2 := r1.dropWhile isPySpace
    let s2 := r2.takeWhile isAlnumCI
    if s2 = [] then none else
    match r2.drop s2.length with
    | '/' :: '/' :: rest => if rest ≠ [] then some (s1, s2, rest) else none
    | _ => none
  | _ => none

/-- Handle one input line of `parse_nsw`: the range branch, otherwise
`_parse_fragment`; any raised `ValueError` becomes a `MalformedEntry`.
A range line yields one `ParsedParcel` per lot in the range. -/
def parseLine (line : List Char) : Except MalformedEntry (List ParsedParcel) :=
  let fallback : Except MalformedEntry (List ParsedParcel) :=
    match _parse_fragment line with
    | .ok (identifier, lot, sect, plan) =>
      .ok [{ id := identifier, state := .NSW, raw := line,
             lot := some lot, sec := sect, plan := some plan }]
    | .error e => .error { raw := line, error := e }
  match rangeMatch line with
  | some (s1, s2, planRaw) =>
    if s1.all isDigitC && s2.all isDigitC then
      match _normalize_plan planRaw with
      | .error e => .error { raw := line, error := e }
      | .ok plan =>
        let start := digitsToNat s1
        let stop := digitsToNat s2
        if stop < start || stop - start > 200 then
          .error { raw := line, error := strL "Range too large or invalid (max 200 lots)" }
        else
          .ok ((List.range (stop + 1 - start)).map (fun k =>
            let lot := natToChars (start + k)
            { id := lot ++ strL "//" ++ plan, state := .NSW, raw := line,
              lot := some lot, plan := some plan }))
    else fallback
  | none => fallback

/-- The nonempty stripped lines of the input (`raw_text.split("\n")`, strip, drop
empties). -/
def nswLines (rawText : List Char) : List (List Char) :=
  ((splitPred (fun c => c = nl) rawText).map pyStrip).filter (fun t => t ≠ [])

/-- Loop body of `parse_nsw` over the line list. -/
def parseLinesNsw : List (List Char) → List ParsedParcel × List MalformedEntry
  | [] => ([], [])
  | line :: rest =>
    let (v, m) := parseLinesNsw rest
    match parseLine line with
    | .ok ps => (ps ++ v, m)
    | .error e => (v, e :: m)

/-- `parse_nsw(raw_text)`. -/
def parse_nsw (rawText : List Char) : List ParsedParcel × List MalformedEntry :=
  parseLinesNsw (nswLines rawText)

end Nsw

/-! ### QLD parser (`backend/app/parsers/qld.py`) -/

namespace Qld

/-- `_NOISE_TOKENS`. -/
def noiseTokens : List (List Char) :=
  [strL "LOT", strL "PLAN", strL "ON", strL "OF", strL "NUMBER", strL "NO",
   strL "NO.", strL "STAGE", strL "UNIT"]

/-- `_normalise_token(raw)`: upper-case, replace separator runs by spaces, drop
noise tokens, re-join with single spaces. -/
def _normalise_token (raw : List Char) : List Char :=
  let cleaned := (pyStrip raw).map upChar
  if cleaned = [] then [] else
  let c1 := replaceRuns (fun c => c = bsl || c = '/' || c = '-') cleaned
  let c2 := replaceRuns (fun c => c = ',' || c = tab) c1
  let c3 := collapseSpaces c2
  let tokens := (splitPred (fun c => c = ' ') c3).filter
    (fun t => t ≠ [] && !noiseTokens.contains t)
  List.intercalate [' '] tokens

/-- Shape of the `lot` group `\d+[A-Z]?`: a nonempty digit run, optionally followed
by one letter. -/
def lotShape (t : List Char) : Bool :=
  let ds := t.takeWhile isDigitC
  ds ≠ [] && (t.drop ds.length = [] ||
    (t.drop ds.length).length = 1 && (t.drop ds.length).all isUpperAZ)

/-- Shape of a compact plan token `[A-Z]{1,4}\s*\d+` with no internal space: a
letter run of length 1–4 followed by a nonempty digit run, nothing else. -/
def planTokenShape (t : List Char) : Bool :=
  let ls := t.takeWhile isUpperAZ
  let rest := t.drop ls.length
  ls ≠ [] && ls.length ≤ 4 && rest ≠ [] && rest.all isDigitC

/-- `_LOTPLAN_WITH_SPACES` (`^(\d+[A-Z]?)\s+([A-Z]{1,4})\s*(\d+)$`) decided on the
space-separated token list of the (already space-normalised) candidate: either
`lot` + `prefix-and-number` glued, or `lot` + `prefix` + `number`. -/
def withSpacesTokens : List (List Char) → Option (List Char × List Char × List Char)
  | [t1, t2] =>
    if lotShape t1 && planTokenShape t2 then
      some (t1, t2.takeWhile isUpperAZ, t2.dropWhile isUpperAZ)
    else none
  | [t1, t2, t3] =>
    if lotShape t1 && t2 ≠ [] && t2.length ≤ 4 && t2.all isUpperAZ
        && t3 ≠ [] && t3.all isDigitC then
      some (t1, t2, t3)
    else none
  | _ => none

/-- `_LOTPLAN_COMPACT` (`^(\d+[A-Z]?)([A-Z]{1,4})(\d+)$`): the string must be a
digit run, a letter block, and a digit run; the greedy optional `[A-Z]?` of the lot
group absorbs the first letter whenever at least two letters are present (checked
against the Python engine: `1RP912949 → (1R, P, 912949)`, `1A123 → (1, A, 123)`,
`12ABCDE123 → (12A, BCDE, 123)`, six letters fail). -/
def compactMatch (s : List Char) : Option (List Char × List Char × List Char) :=
  let d1 := s.takeWhile isDigitC
  if d1 = [] then none else
  let r1 := s.drop d1.length
  let ls := r1.takeWhile isUpperAZ
  if ls = [] then none else
  let r2 := r1.drop ls.length
  let d2 := r2.takeWhile isDigitC
  if d2 = [] || r2.drop d2.length ≠ [] then none else
  if ls.length = 1 then some (d1, ls, d2)
  else if ls.length ≤ 5 then some (d1 ++ [ls.headD ' '], ls.tail, d2)
  else none

/-- `_PLAN_ONLY` (`^([A-Z]{1,4})\s*(\d+)$`) on a single token. -/
def planOnlyMatch (t : List Char) : Option (List Char × List Char) :=
  if planTokenShape t then some (t.takeWhile isUpperAZ, t.dropWhile isUpperAZ)
  else none

/-- The pairwise-recombination loop: first index `idx` whose pair
`parts[idx] ++ " " ++ parts[idx+1]` matches `_LOTPLAN_WITH_SPACES`. -/
def pairwiseScan : List (List Char) → Option (List Char × List Char × List Char)
  | t1 :: t2 :: rest =>
    match withSpacesTokens [t1, t2] with
    | some r => some r
    | none => pairwiseScan (t2 :: rest)
  | _ => none

/-- The final fallback loop: the first part matching `_PLAN_ONLY` whose immediately
preceding part is a `\d+[A-Z]?` lot token. -/
def planOnlyScan (prev : Option (List Char)) :
    List (List Char) → Option (List Char × List Char × List Char)
  | [] => none
  | part :: rest =>
    match planOnlyMatch part with
    | some (pfx, num) =>
      match prev with
      | some lot =>
        if lot ≠ [] && lotShape lot then some (lot, pfx, num)
        else planOnlyScan (some part) rest
      | none => planOnlyScan (some part) rest
    | none => planOnlyScan (some part) rest

/-- `_parse_lotplan_fragment(fragment) -> (lotplan, lot, plan)` or `None`. -/
def _parse_lotplan_fragment (fragment : List Char) :
    Option (List Char × List Char × List Char) :=
  let normalised := _normalise_token fragment
  if normalised = [] then none else
  let parts := splitPred (fun c => c = ' ') normalised
  let m0 := withSpacesTokens parts
  let m1 := match m0 with
    | some r => some r
    | none => compactMatch (normalised.filter (fun c => c ≠ ' '))
  let m2 := match m1 with
    | some r => some r
    | none =>
      if parts.length ≥ 2 then
        match pairwiseScan parts with
        | some r => some r
        | none =>
          -- the explicit `"{parts[0]} {' '.join(parts[1:])}"` retry rebuilds the
          -- same space-normalised string, so it re-runs the match on `parts`
          if parts.length ≥ 3 then withSpacesTokens parts else none
      else none
  match m2 with
  | some (lot, pfx, num) => some (lot ++ pfx ++ num, lot, pfx ++ num)
  | none =>
    match planOnlyScan none parts with
    | some (lot, pfx, num) => some (lot ++ pfx ++ num, lot, pfx ++ num)
    | none => none

/-- The `,` / `\band\b` / `&` sub-splitter of `_split_input` (case-insensitive,
word-boundary `and`), as a fuelled scanner. -/
def splitAndAux : Nat → Option Char → List Char → List Char → List (List Char)
  | 0, _, acc, l => [(acc.reverse ++ l)]
  | _ + 1, _, acc, [] => [acc.reverse]
  | fuel + 1, prev, acc, c :: rest =>
    if c = ',' || c = '&' then
      acc.reverse :: splitAndAux fuel (some c) [] rest
    else if boundaryBefore prev && listIsPre (strL "AND") ((c :: rest).map upChar)
        && boundaryAfter ((c :: rest).drop 3) then
      acc.reverse :: splitAndAux fuel (some 'D') [] ((c :: rest).drop 3)
    else
      splitAndAux fuel (some c) (c :: acc) rest

/-- `re.split(r",|\band\b|&", line, flags=IGNORECASE)`. -/
def splitAnd (l : List Char) : List (List Char) :=
  splitAndAux l.length none [] l

/-- `_split_input(raw_text)`: split on `[\n;]+`, strip, then split each line on
commas / `and` / `&`, strip the parts and keep nonempty ones (falling back to the
whole line when every part is empty). -/
def _split_input (rawText : List Char) : List (List Char) :=
  (splitRunsNE (fun c => c = nl || c = ';') rawText).foldr
    (fun line acc =>
      let line := pyStrip line
      if line = [] then acc
      else
        let parts := ((splitAnd line).map pyStrip).filter (fun t => t ≠ [])
        (if parts ≠ [] then parts else [line]) ++ acc)
    []

/-- Loop body of `parse_qld` with the `seen` deduplication set. -/
def parseFragsQld (seen : List (List Char)) :
    List (List Char) → List ParsedParcel × List MalformedEntry
  | [] => ([], [])
  | fragment :: rest =>
    match _parse_lotplan_fragment fragment with
    | none =>
      let (v, m) := parseFragsQld seen rest
      (v, { raw := fragment,
            error := strL "Expected formats like " ++ [qc] ++ strL "1RP912949" ++ [qc]
              ++ strL ", " ++ [qc] ++ strL "1 RP 912949" ++ [qc] ++ strL ", or "
              ++ [qc] ++ strL "Lot 1 on RP912949" ++ [qc] } :: m)
    | some (lotplan, lot, plan) =>
      if seen.contains lotplan then parseFragsQld seen rest
      else
        let (v, m) := parseFragsQld (lotplan :: seen) rest
        ({ id := lotplan, state := .QLD, raw := fragment,
           lot := some lot, plan := some plan } :: v, m)

/-- `parse_qld(raw_text)`. -/
def parse_qld (rawText : List Char) : List ParsedParcel × List MalformedEntry :=
  parseFragsQld [] (_split_input rawText)

end Qld

/-! ### SA parser (`backend/app/parsers/sa.py`) -/

namespace Sa

/-- `_TITLE_REF_PATTERN = ^[A-Z]{1,3}\d{1,6}/\d{1,6}$`: letter run of length 1–3,
digit run of length 1–6, a slash, digit run of length 1–6 (runs are forced maximal
because the following literal is outside each class). -/
def titleRefPat (s : List Char) : Bool :=
  let ls := s.takeWhile isUpperAZ
  let r1 := s.drop ls.length
  let d1 := r1.takeWhile isDigitC
  let r2 := r1.drop d1.length
  ls ≠ [] && ls.length ≤ 3 && d1 ≠ [] && d1.length ≤ 6 &&
    (match r2 with
     | '/' :: d2 => d2 ≠ [] && d2.length ≤ 6 && d2.all isDigitC
     | _ => false)

/-- `_PLAN_PATTERN = ^[A-Z]+\d+[A-Z0-9]*$`: head letter, at least one digit right
after the letter run, all characters alphanumeric. -/
def planPatSa (s : List Char) : Bool :=
  let ls := s.takeWhile isUpperAZ
  ls ≠ [] && isDigitC ((s.drop ls.length).headD ' ') && s.all isAlnumUp

/-- `_LOT_PATTERN = ^[A-Z0-9]+$`. -/
def lotPatSa (s : List Char) : Bool := s ≠ [] && s.all isAlnumUp

/-- Shape of each group of `_DCDB_PATTERN` (`[A-Z]+[0-9A-Z]*\d`): nonempty, head a
letter, last a digit, all characters alphanumeric. -/
def dcdbGroupShape (s : List Char) : Bool :=
  s ≠ [] && isUpperAZ (s.headD ' ') && isDigitC (s.getLastD ' ') && s.all isAlnumUp

/-- `_DCDB_PATTERN = ^(plan)(lot)$` with both groups `[A-Z]+[0-9A-Z]*\d`.  The
greedy star makes the engine take the *rightmost* split point whose two halves both
have the group shape (checked against the Python engine: `A1B2C3 → (A1B2, C3)`,
`A1B2C3D4 → (A1B2C3, D4)`). -/
def dcdbMatch (s : List Char) : Option (List Char × List Char) :=
  ((List.range s.length).reverse.filter (fun i => 1 ≤ i)).findSome? (fun i =>
    if dcdbGroupShape (s.take i) && dcdbGroupShape (s.drop i) then
      some (s.take i, s.drop i)
    else none)

/-- `_SA_NOISE_WORDS` (a Python `set`; the replacement order is immaterial because
every noise word only matches when delimited by non-word characters, which a
replacement never changes, so a fixed order is a faithful model). -/
def saNoiseWords : List (List Char) :=
  [strL "LOT", strL "LOTS", strL "PLAN", strL "PARCEL", strL "ON", strL "OF",
   strL "THE", strL "SEC", strL "SECTION", strL "ALLOTMENT", strL "ALLOT",
   strL "UNIT", strL "STAGE", strL "PT", strL "PART", strL "HUNDRED", strL "HD",
   strL "DP", strL "ID"]

/-- `_tokenise_sa(raw) -> (tokens, text, compact)`. -/
def _tokenise_sa (raw : List Char) :
    List (List Char) × List Char × List Char :=
  let t0 := raw.map upChar
  let t1 := replaceRuns (fun c => c = '-' || c = '_' || c = '/') t0
  let t2 := replaceRuns (fun c => c = ',' || c = '.' || c = ';') t1
  let t3 := saNoiseWords.foldl (fun t w => replWord w [' '] t) t2
  let t4 := pyStrip (collapseSpaces t3)
  let tokens := (splitPred (fun c => c = ' ') t4).filter (fun t => t ≠ [])
  (tokens, t4, t4.filter (fun c => c ≠ ' '))

/-- Fuelled scan for `re.findall(r"[A-Z]+\d+", s)`: left-to-right non-overlapping
scan; each match is a maximal letter run followed by a maximal digit run. -/
def findSegsAux : Nat → List Char → List (List Char)
  | 0, _ => []
  | _ + 1, [] => []
  | fuel + 1, c :: rest =>
    if isUpperAZ c then
      -- the maximal letter run at this position is `c` plus the run inside `rest`
      let lsr := rest.takeWhile isUpperAZ
      let r := rest.drop lsr.length
      let ds := r.takeWhile isDigitC
      if ds ≠ [] then ((c :: lsr) ++ ds) :: findSegsAux fuel (r.drop ds.length)
      else findSegsAux fuel rest
    else findSegsAux fuel rest

/-- `re.findall(r"[A-Z]+\d+", s)`. -/
def findSegs (l : List Char) : List (List Char) := findSegsAux l.length l

/-- The first/second elements of `sorted(tokens, key=(len, digits), reverse=True)`:
Python's stable sort makes these the earliest maximal-key token and the earliest
maximal-key token of the remainder. -/
def topTwo (tokens : List (List Char)) :
    Option (List Char) × Option (List Char) :=
  let key := fun t => (t.length, digitCount t)
  match maxByFirst key tokens with
  | none => (none, none)
  | some first => (some first, maxByFirst key (tokens.erase first))

/-- `_extract_plan_lot(raw) -> (plan, lot)`. -/
def _extract_plan_lot (raw : List Char) :
    Except (List Char) (List Char × List Char) :=
  let (tokens, _, compact) := _tokenise_sa raw
  if compact = [] then .error (strL "Invalid SA identifier") else
  let pl : Option (List Char) × Option (List Char) :=
    match dcdbMatch compact with
    | some (p, l) => (some p, some l)
    | none =>
      let planCandidates := tokens.filter planPatSa
      let lotCandidates := tokens.filter lotPatSa
      let step1 : Option (List Char) × Option (List Char) :=
        if planCandidates ≠ [] && lotCandidates ≠ [] then
          match maxByFirst (fun t => (t.length, digitCount t)) planCandidates with
          | some plan =>
            let remainingLots := lotCandidates.filter (fun t => t ≠ plan)
            (some plan,
             if remainingLots ≠ [] then
               maxByFirst (fun t => (digitCount t, t.length)) remainingLots
             else none)
          | none => (none, none)
        else (none, none)
      let step2 : Option (List Char) × Option (List Char) :=
        if (step1.1.isNone || step1.2.isNone) && tokens.length ≥ 2 then
          topTwo tokens
        else step1
      if (step2.1.isNone || step2.2.isNone) && tokens.length = 1 then
        match findSegs (tokens.headD []) with
        | s0 :: s1 :: _ => (some s0, some s1)
        | _ => step2
      else step2
  match pl with
  | (some plan, some lot) =>
    if plan = [] || lot = [] then .error (strL "Invalid SA plan/lot combination")
    else if plan.length < lot.length then .ok (lot, plan)
    else .ok (plan, lot)
  | _ => .error (strL "Invalid SA plan/lot combination")

/-- `_normalise_title_ref(raw) -> (cleaned, volume, folio)`: upper-case, remove
space characters, strip, validate, split at the (unique) slash. -/
def _normalise_title_ref (raw : List Char) :
    Except (List Char) (List Char × List Char × List Char) :=
  let cleaned := pyStrip ((raw.map upChar).filter (fun c => c ≠ ' '))
  if titleRefPat cleaned then
    .ok (cleaned, cleaned.takeWhile (fun c => c ≠ '/'),
         (cleaned.dropWhile (fun c => c ≠ '/')).drop 1)
  else
    .error (strL "Invalid SA title reference. Expected format like CT6204/831")

/-- `_normalise_dcdb_id(raw) -> (canonical, plan, lot)` with `canonical = plan+lot`. -/
def _normalise_dcdb_id (raw : List Char) :
    Except (List Char) (List Char × List Char × List Char) :=
  (_extract_plan_lot raw).map (fun (plan, lot) => (plan ++ lot, plan, lot))

/-- `_split_input(raw_text)` for SA: lines, then `[;,]+` pieces, strip and keep
nonempty (falling back to the whole stripped line). -/
def _split_input (rawText : List Char) : List (List Char) :=
  (splitPred (fun c => c = nl) rawText).foldr
    (fun line acc =>
      let line := pyStrip line
      if line = [] then acc
      else
        let parts := ((splitRunsNE (fun c => c = ';' || c = ',') line).map pyStrip).filter
          (fun t => t ≠ [])
        (if parts ≠ [] then parts else [line]) ++ acc)
    []

/-- The per-fragment body of `parse_sa`: the title branch is attempted first and its
`ValueError` alone is caught by the inner `try`; on failure the fragment flows to
the DCDB normalisation, whose error escapes to the outer handler. -/
def saFragment (fragment : List Char) : Except (List Char) ParsedParcel :=
  match _normalise_title_ref fragment with
  | .ok (titleRef, volume, folio) =>
    .ok { id := strL "SA:TITLE:" ++ titleRef, state := .SA, raw := fragment,
          volume := some volume, folio := some folio }
  | .error _ =>
    match _normalise_dcdb_id fragment with
    | .ok (dcdbId, plan, lot) =>
      .ok { id := strL "SA:DCDB:" ++ dcdbId, state := .SA, raw := fragment,
            plan := some plan, lot := some lot }
    | .error e => .error e

/-- Loop body of `parse_sa` with the `seen` deduplication set. -/
def parseFragsSa (seen : List (List Char)) :
    List (List Char) → List ParsedParcel × List MalformedEntry
  | [] => ([], [])
  | fragment :: rest =>
    if fragment = [] then parseFragsSa seen rest
    else
      match saFragment fragment with
      | .ok parcel =>
        if seen.contains parcel.id then parseFragsSa seen rest
        else
          let (v, m) := parseFragsSa (parcel.id :: seen) rest
          (parcel :: v, m)
      | .error e =>
        let (v, m) := parseFragsSa seen rest
        (v, { raw := fragment, error := e } :: m)

/-- `parse_sa(raw_text)`. -/
def parse_sa (rawText : List Char) : List ParsedParcel × List MalformedEntry :=
  parseFragsSa [] (_split_input rawText)

end Sa

/-! ### VIC parser (`backend/app/parsers/vic.py`) -/

namespace Vic

/-- `_PLAN_PATTERN = ^[A-Z]{1,4}\d+[A-Z0-9]*$`: a letter run of length 1–4 (the run
must be at most 4 letters, otherwise the `\d+` that follows cannot match), then at
least one digit, then alphanumerics. -/
def planPatVic (s : List Char) : Bool :=
  let ls := s.takeWhile isUpperAZ
  let rest := s.drop ls.length
  ls ≠ [] && ls.length ≤ 4 && isDigitC (rest.headD ' ') && rest.all isAlnumUp

/-- `_LOT_PATTERN = ^[A-Z0-9]+$`. -/
def lotPatVic (s : List Char) : Bool := s ≠ [] && s.all isAlnumUp

/-- `_canonical_spi(lot, plan) -> (spi, lot, plan)`. -/
def _canonical_spi (lot plan : List Char) :
    Except (List Char) (List Char × List Char × List Char) :=
  let lotClean := (pyStrip lot).map upChar
  let planClean := (pyStrip plan).map upChar
  if lotClean = [] || !lotPatVic lotClean then
    .error (strL "Invalid lot component")
  else if planClean = [] || !planPatVic planClean then
    .error (strL "Invalid plan component")
  else
    .ok (lotClean ++ [bsl] ++ planClean, lotClean, planClean)

/-- Rightmost token matching the plan pattern, with the index split of the token
list (`tokens[:plan_index] + tokens[plan_index+1:]`). -/
def rightmostPlan (tokens : List (List Char)) :
    Option (List Char × List (List Char)) :=
  match tokens.reverse.findIdx? planPatVic with
  | none => none
  | some revIdx =>
    let idx := tokens.length - 1 - revIdx
    some (tokens.getD idx [], tokens.take idx ++ tokens.drop (idx + 1))

/-- `_normalise_spi(value) -> (spi, lot, plan)`. -/
def _normalise_spi (value : List Char) :
    Except (List Char) (List Char × List Char × List Char) :=
  let cleaned := (pyStrip value).map upChar
  if cleaned = [] then .error (strL "Empty VIC parcel identifier") else
  if cleaned.contains bsl then
    -- `cleaned.split("\\", 1)` with both parts stripped
    _canonical_spi (pyStrip (cleaned.takeWhile (fun c => c ≠ bsl)))
      (pyStrip ((cleaned.dropWhile (fun c => c ≠ bsl)).drop 1))
  else
    let c1 := cleaned.map (fun c => if c = '/' then ' ' else c)
    let c2 := replaceRuns (fun c => c = ',' || c = ';') c1
    let c3 := replWord (strL "LOT") [' '] c2
    let c4 := pyStrip (collapseSpaces c3)
    if c4 = [] then .error (strL "Invalid VIC parcel identifier") else
    let tokens := splitPred (fun c => c = ' ') c4
    match rightmostPlan tokens with
    | none => .error (strL "Missing plan component (e.g. PS433970)")
    | some (plan, others) =>
      let lotCandidates := others.filter (fun t => t ≠ [])
      match lotCandidates with
      | [] => .error (strL "Missing lot component")
      | lot :: _ =>
        if !lotPatVic lot then .error (strL "Invalid lot component")
        else _canonical_spi lot plan

/-- `normalize_vic_spi`. -/
def normalize_vic_spi (raw : List Char) :
    Except (List Char) (List Char × List Char × List Char) :=
  _normalise_spi raw

/-- The nonempty stripped lines of the input. -/
def vicLines (rawText : List Char) : List (List Char) :=
  ((splitPred (fun c => c = nl) rawText).map pyStrip).filter (fun t => t ≠ [])

/-- Loop body of `parse_vic` over the line list: each line contributes exactly one
`ParsedParcel` or exactly one `MalformedEntry`. -/
def parseLinesVic : List (List Char) → List ParsedParcel × List MalformedEntry
  | [] => ([], [])
  | line :: rest =>
    let (v, m) := parseLinesVic rest
    match _normalise_spi line with
    | .ok (identifier, lot, plan) =>
      ({ id := identifier, state := .VIC, raw := line,
         lot := some lot, plan := some plan } :: v, m)
    | .error e => (v, { raw := line, error := e } :: m)

/-- `parse_vic(raw_text)`. -/
def parse_vic (rawText : List Char) : List ParsedParcel × List MalformedEntry :=
  parseLinesVic (vicLines rawText)

end Vic

/-! ### Parse dispatcher (`backend/app/parsers/__init__.py`) -/

/-- `parse_parcel_input(state, raw_text)`. -/
def parse_parcel_input (state : ParcelState) (rawText : List Char) :
    List ParsedParcel × List MalformedEntry :=
  match state with
  | .NSW => Nsw.parse_nsw rawText
  | .QLD => Qld.parse_qld rawText
  | .SA => Sa.parse_sa rawText
  | .VIC => Vic.parse_vic rawText

/-! ### ArcGIS client (`backend/app/arcgis.py`)

The HTTP layer is modelled by oracles: `query_features` receives the per-chunk
response outcome as a function of the chunk index, and the geodesic-area
computation (`shapely`/`pyproj`, floating point) is an `Except`-valued oracle
parameter.  JSON attribute values are modelled by `PVal` (strings, integers, the
rational result of the area computation, and `null`); `str()` of a float never
reaches a claim and is therefore only represented for the cases that occur. -/

namespace Arc

/-- A JSON attribute value as used by the client. -/
inductive PVal
  | s (v : List Char)
  | num (v : Int)
  | flt (v : Rat)
  | null
deriving DecidableEq, Repr

/-- Python `str()` of an attribute value (`str` and `int` faithfully; floats do not
occur in any property proved here). -/
def pvalStr : PVal → List Char
  | .s v => v
  | .num v => (toString v).data
  | .flt v => (toString v).data
  | .null => strL "None"

/-- Python truthiness of an attribute value. -/
def pvTruthy : PVal → Bool
  | .s v => v ≠ []
  | .num v => v ≠ 0
  | .flt v => v ≠ 0
  | .null => false

/-- An insertion-ordered string-keyed dictionary (Python `dict`). -/
abbrev PDict : Type := List (List Char × PVal)

/-- Key presence / raw value (`k in d`, `d[k]`). -/
def pGet (d : PDict) (k : List Char) : Option PVal :=
  (d.find? (fun kv => kv.1 = k)).map (fun kv => kv.2)

/-- Python `d.get(k)`: an absent key and a `None` value are indistinguishable. -/
def pGetV (d : PDict) (k : List Char) : Option PVal :=
  match pGet d k with
  | some .null => none
  | x => x

/-- Python `d[k] = v`: update in place, or append for a new key. -/
def pSet (d : PDict) (k : List Char) (v : PVal) : PDict :=
  if (List.find? (fun kv => kv.1 = k) d).isSome then
    d.map (fun kv => if kv.1 = k then (k, v) else kv)
  else d ++ [(k, v)]

/-- Python `d.setdefault(k, v)` (presence-based, not truthiness-based). -/
def pSetdefault (d : PDict) (k : List Char) (v : PVal) : PDict :=
  if (List.find? (fun kv => kv.1 = k) d).isSome then d else d ++ [(k, v)]

/-- A GeoJSON geometry object, represented by its `type` member plus an opaque
payload (the code never inspects anything else; the payload is consumed only by
the area oracle and returned verbatim). -/
structure Geometry where
  gtype : Option (List Char)
  payload : Nat := 0
deriving DecidableEq, Repr

/-- One raw feature of a GeoJSON response (`feature.get('geometry')` /
`feature.get('properties', {})`); a missing or falsy geometry is `none`. -/
structure RawFeature where
  geometry : Option Geometry
  props : PDict
deriving DecidableEq, Repr

/-- A processed feature as assembled by `_process_feature` (the constant
`'type': 'Feature'` member is implicit). -/
structure ProcessedFeature where
  geometry : Geometry
  props : PDict
deriving DecidableEq, Repr

/-- `STATE_FIELD_MAPPINGS` entry. -/
structure FieldMapping where
  id_field : List Char
  name_field : List Char
  lot_field : Option (List Char) := none
  section_field : Option (List Char) := none
  plan_field : Option (List Char) := none
  title_field : Option (List Char) := none
  like_fields : List (List Char) := []
deriving DecidableEq, Repr

/-- The `.value` string of the state enum. -/
def stateValue : ParcelState → List Char
  | .NSW => strL "NSW"
  | .QLD => strL "QLD"
  | .SA => strL "SA"
  | .VIC => strL "VIC"

/-- `STATE_FIELD_MAPPINGS[ParcelState.NSW]` (the members a claim can observe). -/
def nswMapping : FieldMapping where
  id_field := strL "lotidstring"
  name_field := strL "lotidstring"
  lot_field := some (strL "lotnumber")
  section_field := some (strL "sectionnumber")
  plan_field := some (strL "planlabel")
  like_fields := [strL "planlabel", strL "lotidstring", strL "lotnumber",
                  strL "sectionnumber"]

/-- `STATE_FIELD_MAPPINGS[ParcelState.QLD]`. -/
def qldMapping : FieldMapping where
  id_field := strL "lotplan"
  name_field := strL "addr_legal"
  lot_field := some (strL "lot")
  plan_field := some (strL "plan")
  like_fields := [strL "addr_legal", strL "lot", strL "plan"]

/-- `STATE_FIELD_MAPPINGS[ParcelState.SA]`. -/
def saMapping : FieldMapping where
  id_field := strL "parcel_id"
  name_field := strL "parcel_id"
  title_field := some (strL "title_ref")
  like_fields := [strL "parcel_id", strL "title_ref", strL "dcdb_id"]

/-- `STATE_FIELD_MAPPINGS[ParcelState.VIC]`. -/
def vicMapping : FieldMapping where
  id_field := strL "PARCEL_SPI"
  name_field := strL "PARCEL_SPI"
  lot_field := some (strL "PARCEL_LOT_NUMBER")
  plan_field := some (strL "PARCEL_PLAN_NUMBER")
  like_fields := [strL "PARCEL_SPI"]

/-- The field mapping selected for a state. -/
def mappingFor : ParcelState → FieldMapping
  | .NSW => nswMapping
  | .QLD => qldMapping
  | .SA => saMapping
  | .VIC => vicMapping

/-- `parcel_id_str.replace("'", "''")`: double every single quote. -/
def sqlEscape (s : List Char) : List Char :=
  s.flatMap (fun c => if c = qc then [qc, qc] else [c])

/-- The `where_conditions` accumulation loop of `query_features`: empty ids are
skipped, every other id is escaped and wrapped in single quotes. -/
def where_conditions (chunk : List (List Char)) : List (List Char) :=
  chunk.foldl
    (fun acc pid => if pid = [] then acc else acc ++ [[qc] ++ sqlEscape pid ++ [qc]])
    []

/-- `f"{id_field} IN ({','.join(where_conditions)})"`. -/
def build_where_clause (idField : List Char) (chunk : List (List Char)) : List Char :=
  idField ++ strL " IN (" ++ List.intercalate (strL ",") (where_conditions chunk)
    ++ strL ")"

/-- The SA per-scheme clause of `_query_sa_features`:
`UPPER(field) IN (...)` over the escaped chunk values. -/
def build_sa_where_clause (fieldName : List Char) (chunk : List (List Char)) :
    List Char :=
  strL "UPPER(" ++ fieldName ++ strL ") IN ("
    ++ List.intercalate (strL ",")
        (chunk.map (fun v => [qc] ++ sqlEscape v ++ [qc]))
    ++ strL ")"

/-- `_SA_DCDB_PATTERN` of `arcgis.py` (`^([A-Z]+\d+)([A-Z]+\d+)$`, simpler than the
parser's): both groups are a letter run followed by a digit run; greediness again
selects the rightmost admissible split. -/
def arcDcdbGroupShape (s : List Char) : Bool :=
  let ls := s.takeWhile isUpperAZ
  let rest := s.drop ls.length
  ls ≠ [] && rest ≠ [] && rest.all isDigitC

/-- Rightmost split of `_SA_DCDB_PATTERN`. -/
def arcDcdbMatch (s : List Char) : Option (List Char × List Char) :=
  ((List.range s.length).reverse.filter (fun i => 1 ≤ i)).findSome? (fun i =>
    if arcDcdbGroupShape (s.take i) && arcDcdbGroupShape (s.drop i) then
      some (s.take i, s.drop i)
    else none)

/-- `" ".join(str(x).upper().split())`: upper-case and normalise internal
whitespace. -/
def normSpaces (l : List Char) : List Char :=
  List.intercalate [' '] (splitRunsNE isPySpace (l.map upChar))

/-- The `title_ref` fallback of the SA branch of `_process_feature`. -/
def saTitleStep (fid0 name0 : PVal) (props0 : PDict) (titleRefValue : Option PVal) :
    PVal × PVal × PDict :=
  match titleRefValue with
  | some (.s t) =>
    if pyStrip t ≠ [] then
      let normalisedTitle := (t.map upChar).filter (fun c => c ≠ ' ')
      let p := pSet props0 (strL "title_ref") (.s normalisedTitle)
      let p := pSetdefault p (strL "display_title") (.s normalisedTitle)
      (.s normalisedTitle, .s normalisedTitle, p)
    else (fid0, name0, props0)
  | _ => (fid0, name0, props0)

/-- The `parcel_id` / `title_ref` fallbacks of the SA branch of `_process_feature`
(reached when no usable `dcdb_id` is present). -/
def saParcelIdStep (fid0 name0 : PVal) (props0 : PDict) (parcelIdValue : PVal)
    (titleRefValue : Option PVal) : PVal × PVal × PDict :=
  match parcelIdValue with
  | .s pv =>
    if pyStrip pv ≠ [] then
      let canonical := normSpaces pv
      let p := pSet props0 (strL "parcel_id") (.s canonical)
      let parts := splitRunsNE (fun c => c = ' ') canonical
      let p := match parts with
        | p0 :: p1 :: _ =>
          pSetdefault (pSetdefault p (strL "plan") (.s p0)) (strL "lot") (.s p1)
        | _ => p
      (.s canonical, .s canonical, p)
    else saTitleStep fid0 name0 props0 titleRefValue
  | _ => saTitleStep fid0 name0 props0 titleRefValue

/-- The state-specific re-normalisation block of `_process_feature`: rewrites the
feature id, name and properties.  A normalisation failure (the Python
`try/except` around `normalize_nsw_identifier` / `normalize_vic_spi`) leaves all
three unchanged. -/
def stateBranch (state : ParcelState) (fm : FieldMapping) (fid0 name0 : PVal)
    (props0 : PDict) : PVal × PVal × PDict :=
  match state, fid0 with
  | .NSW, .s v =>
    match Nsw.normalize_nsw_identifier v with
    | .ok (canonical, lot, sect, plan) =>
      let p := pSet props0 fm.id_field (.s canonical)
      let p := pSet p (strL "lotplan") (.s canonical)
      let p := match fm.lot_field with
        | some lf => if lot ≠ [] then pSet p lf (.s lot) else p
        | none => p
      let p := match fm.section_field, sect with
        | some sf, some s => if s ≠ [] then pSet p sf (.s s) else p
        | _, _ => p
      let p := match sect with
        | some s => if s ≠ [] then pSet p (strL "section") (.s s) else p
        | none => p
      let p := match fm.plan_field with
        | some pf => if plan ≠ [] then pSet p pf (.s plan) else p
        | none => p
      let p := pSet p (strL "plan") (.s plan)
      (.s canonical, .s canonical, p)
    | .error _ => (fid0, name0, props0)
  | .SA, _ =>
    let parcelIdValue : PVal := match pGetV props0 (strL "parcel_id") with
      | some v => if pvTruthy v then v else fid0
      | none => fid0
    let titleRefValue := pGet props0 (strL "title_ref")
    let dcdbValue := pGet props0 (strL "dcdb_id")
    match dcdbValue with
    | some (.s d) =>
      if pyStrip d ≠ [] then
        let dcdbClean := (d.map upChar).filter (fun c => c ≠ ' ')
        let p := pSet props0 (strL "dcdb_id") (.s dcdbClean)
        let p := match arcDcdbMatch dcdbClean with
          | some (pl, lo) =>
            pSetdefault (pSetdefault p (strL "plan") (.s pl)) (strL "lot") (.s lo)
          | none => p
        (.s dcdbClean, .s dcdbClean, p)
      else saParcelIdStep fid0 name0 props0 parcelIdValue titleRefValue
    | _ => saParcelIdStep fid0 name0 props0 parcelIdValue titleRefValue
  | .VIC, .s v =>
    match Vic.normalize_vic_spi v with
    | .ok (canonical, lot, plan) =>
      let p := pSet props0 fm.id_field (.s canonical)
      let p := pSet p (strL "parcel_spi") (.s canonical)
      let p := pSet p (strL "lot") (.s lot)
      let p := pSet p (strL "plan") (.s plan)
      let p := match fm.lot_field with
        | some lf => pSet p lf (.s lot)
        | none => p
      let p := match fm.plan_field with
        | some pf => pSet p pf (.s plan)
        | none => p
      (.s canonical, .s canonical, p)
    | .error _ => (fid0, name0, props0)
  | _, _ => (fid0, name0, props0)

/-- `_process_feature(feature, state, field_mapping)`: returns the standardized
feature or `none`.  The geodesic-area computation is the oracle `areaCalc` (the
code takes `abs(...)` of its result and divides by `10000`; any exception, i.e.
`.error`, leaves the area `null`).  Every fallible sub-step of the Python body is
modelled with an explicit fallback, so the function is total — the enclosing
`try/except` has nothing left to catch. -/
def _process_feature (state : ParcelState) (fm : FieldMapping)
    (areaCalc : Geometry → Except (List Char) Rat) (feature : RawFeature) :
    Option ProcessedFeature :=
  match feature.geometry with
  | none => none
  | some g =>
    let props0 := feature.props
    let fid0 : PVal := match pGet props0 fm.id_field with
      | some v => v
      | none => .s (strL "unknown")
    let name0 : PVal := match pGet props0 fm.name_field with
      | some v => v
      | none => .s (stateValue state ++ strL " Parcel " ++ pvalStr fid0)
    let (fid1, name1, props1) := stateBranch state fm fid0 name0 props0
    let area : Option Rat :=
      if g.gtype = some (strL "Polygon") || g.gtype = some (strL "MultiPolygon") then
        match areaCalc g with
        | .ok a => some (|a| / 10000)
        | .error _ => none
      else none
    let base : PDict :=
      [(strL "id", .s (pvalStr fid1)), (strL "state", .s (stateValue state)),
       (strL "name", name1),
       (strL "area_ha", match area with | some q => .flt q | none => .null)]
    let merged := (props1.filter (fun kv => kv.2 ≠ .null)).foldl
      (fun d kv => pSet d kv.1 kv.2) base
    some { geometry := g, props := merged }

/-- Outcome of one chunk request, as seen after the retry policy and response
decoding: a decoded payload with a `features` member, a payload with an `error`
member, a payload with neither, or a raised exception (HTTP error, timeout, or
retries exhausted). -/
inductive FetchOutcome
  | featuresOk (features : List RawFeature)
  | errorPayload
  | unexpected
  | failure
deriving DecidableEq, Repr

/-- Split into chunks of `k` (`parcel_ids[i:i+k]` for `i in range(0, n, k)`),
fuelled by the list length. -/
def chunksOfAux (k : Nat) : Nat → List α → List (List α)
  | 0, [] => []
  | 0, a :: rest => [a :: rest]
  | _ + 1, [] => []
  | fuel + 1, a :: rest => (a :: rest).take k :: chunksOfAux k fuel ((a :: rest).drop k)

/-- Chunking of the identifier list. -/
def chunksOf (k : Nat) (l : List α) : List (List α) := chunksOfAux k l.length l

/-- The per-chunk contribution of the `query_features` loop: an
all-empty-ids chunk is skipped without a request; a `features` payload contributes
its processed features; an `error` payload, an unexpected payload, and a raised
exception each contribute nothing (the loop logs and continues). -/
def chunk_contribution (state : ParcelState) (fm : FieldMapping)
    (areaCalc : Geometry → Except (List Char) Rat) (out : FetchOutcome)
    (chunk : List (List Char)) : List ProcessedFeature :=
  if where_conditions chunk = [] then []
  else
    match out with
    | .featuresOk feats => feats.filterMap (_process_feature state fm areaCalc)
    | .errorPayload => []
    | .unexpected => []
    | .failure => []

/-- The chunk loop of `query_features` (non-SA path), indexed by chunk ordinal:
each branch of the Python body either extends `all_features` with the processed
features of the chunk or `continue`s. -/
def query_features_go (state : ParcelState) (fm : FieldMapping)
    (areaCalc : Geometry → Except (List Char) Rat) (fetch : Nat → FetchOutcome) :
    Nat → List (List (List Char)) → List ProcessedFeature
  | _, [] => []
  | i, chunk :: rest =>
    if where_conditions chunk = [] then
      query_features_go state fm areaCalc fetch (i + 1) rest
    else
      match fetch i with
      | .featuresOk feats =>
        feats.filterMap (_process_feature state fm areaCalc)
          ++ query_features_go state fm areaCalc fetch (i + 1) rest
      | .errorPayload => query_features_go state fm areaCalc fetch (i + 1) rest
      | .unexpected => query_features_go state fm areaCalc fetch (i + 1) rest
      | .failure => query_features_go state fm areaCalc fetch (i + 1) rest

/-- `query_features(state, parcel_ids, bbox)` for a non-SA state, with the chunk
responses supplied by the oracle `fetch` (one outcome per chunk index; a `.failure`
models a request whose retries are exhausted). -/
def query_features (state : ParcelState) (fm : FieldMapping)
    (areaCalc : Geometry → Except (List Char) Rat) (maxIdsPerChunk : Nat)
    (parcelIds : List (List Char)) (fetch : Nat → FetchOutcome) :
    List ProcessedFeature :=
  query_features_go state fm areaCalc fetch 0 (chunksOf maxIdsPerChunk parcelIds)

/-! #### `search_parcels` -/

/-- `SearchResult` pydantic model. -/
structure SearchResult where
  id : List Char
  state : ParcelState
  label : List Char
  address : Option (List Char) := none
  lot : Option (List Char) := none
  plan : Option (List Char) := none
  locality : Option (List Char) := none
deriving DecidableEq, Repr

/-- `ArcGISError(message, code)`. -/
structure ArcGISError where
  message : List Char
  code : Option Int
deriving DecidableEq, Repr

/-- The `error` member of an upstream payload (`payload['error'] or {}` collapses a
falsy value to an empty dict, i.e. all members absent). -/
structure ErrorInfo where
  code : Option Int := none
  message : Option (List Char) := none
  details : List (List Char) := []
deriving DecidableEq, Repr

/-- An upstream search response payload: an optional `error` member and the
`features` list (each feature contributing its `attributes` dict). -/
structure SearchPayload where
  errorField : Option ErrorInfo := none
  features : List PDict := []
deriving Repr

/-- `_build_search_result(attributes, field_mapping)`; `attributes.get(...)`
collapses absent keys and `None` values. -/
def _build_search_result (fm : FieldMapping) (attributes : PDict) :
    Option SearchResult :=
  match pGetV attributes fm.id_field with
  | none => none
  | some parcelId =>
    let address := pGetV attributes fm.name_field
    let lot0 := pGetV attributes (fm.lot_field.getD [])
    let plan0 := pGetV attributes (fm.plan_field.getD [])
    -- the mutated `attributes` (the `section` store) is never read again, because
    -- the locality lookup below is short-circuited by the `None` locality field
    let (normalizedId, lot, plan, _attributes2) :
        List Char × Option PVal × Option PVal × PDict :=
      match parcelId with
      | .s v =>
        match Nsw.normalize_nsw_identifier v with
        | .ok (canonical, lotNorm, sectNorm, planNorm) =>
          (canonical, some (.s lotNorm), some (.s planNorm),
           match sectNorm with
           | some s => pSet attributes (strL "section") (.s s)
           | none => attributes)
        | .error _ => (pvalStr parcelId, lot0, plan0, attributes)
      | _ => (pvalStr parcelId, lot0, plan0, attributes)
    -- NSW's mapping stores `locality_field: None`, so `.get('locality_field',
    -- 'locality')` yields a falsy field name and `locality` is always `None`
    let locality : Option PVal := none
    let labelParts : List (List Char) :=
      (match address with
       | some a => if pvTruthy a then [pvalStr a] else []
       | none => [])
    let titleParts : List (List Char) :=
      (match lot with
       | some l => if pvTruthy l then [strL "Lot " ++ pvalStr l] else []
       | none => []) ++
      (match plan with
       | some p => if pvTruthy p then [pvalStr p] else []
       | none => [])
    let labelParts := labelParts ++
      (if titleParts ≠ [] then [List.intercalate [' '] titleParts] else [])
    let labelParts := labelParts ++
      (match locality with
       | some lo =>
         if pvTruthy lo && !labelParts.contains (pvalStr lo) then [pvalStr lo]
         else []
       | none => [])
    let label := if labelParts ≠ [] then List.intercalate (strL " · ") labelParts
      else pvalStr parcelId
    some { id := normalizedId, state := .NSW, label := label,
           address := address.map pvalStr,
           lot := lot.map pvalStr, plan := plan.map pvalStr,
           locality := locality.map pvalStr }

/-- The response handling of `search_parcels` after a decoded payload is obtained:
an `error` member raises `ArcGISError` with the upstream message (defaulted when
falsy, extended with the truthy details) and the upstream code; otherwise the
features' attributes are turned into `SearchResult`s, dropping unusable ones. -/
def handle_search_payload (fm : FieldMapping) (payload : SearchPayload) :
    Except ArcGISError (List SearchResult) :=
  match payload.errorField with
  | some e =>
    let message := match e.message with
      | some m => if m ≠ [] then m else strL "ArcGIS API error"
      | none => strL "ArcGIS API error"
    let detailText := List.intercalate (strL "; ") (e.details.filter (fun d => d ≠ []))
    let message := if e.details ≠ [] && detailText ≠ [] then
        message ++ strL ": " ++ detailText
      else message
    .error { message := message, code := e.code }
  | none => .ok (payload.features.filterMap (_build_search_result fm))

/-- `_sanitize_search_term(term)`: upper-case, replace every character outside
`[A-Za-z0-9\s/\-]` by a space, collapse whitespace, strip, truncate to 100. -/
def _sanitize_search_term (term : List Char) : List Char :=
  let cleaned := (term.map upChar).map (fun c =>
    if isAlnumCI c || isPySpace c || c = '/' || c = '-' then c else ' ')
  (pyStrip (collapseSpaces cleaned)).take 100

/-- The structured NSW search pattern
`^([A-Z0-9\-]+)(?:/([A-Z0-9\-]+))?//([A-Z0-9\-]+)$` on the space-stripped term
(same shape as the canonical lot pattern, with `-` added to every class). -/
def searchStructMatch (s : List Char) :
    Option (List Char × Option (List Char) × List Char) :=
  let cls := fun c => isAlnumUp c || c = '-'
  let lot := s.takeWhile cls
  if lot = [] then none else
  match s.drop lot.length with
  | '/' :: '/' :: plan =>
    if plan ≠ [] && plan.all cls then some (lot, none, plan) else none
  | '/' :: r1 =>
    let sect := r1.takeWhile cls
    if sect = [] then none else
    match r1.drop sect.length with
    | '/' :: '/' :: plan =>
      if plan ≠ [] && plan.all cls then some (lot, some sect, plan) else none
    | _ => none
  | _ => none

/-- What one invocation of the `search_parcels` body does before/instead of its
HTTP request: an unsupported state raises a `ValueError` at once (no request); an
empty sanitized term returns `[]` (no request); otherwise exactly one request is
issued with the recorded WHERE clause and the clamped pagination values. -/
inductive SearchStep
  | usageError (msg : List Char)
  | emptyResult
  | request (whereClause : List Char) (page pageSize offset : Int)
deriving DecidableEq, Repr

/-- The validation / sanitization / WHERE-building part of `search_parcels(state,
term, page, page_size)` (the NSW mapping is the only one reachable past the state
check). -/
def search_parcels_plan (state : ParcelState) (term : List Char)
    (page pageSize : Int) : SearchStep :=
  if state ≠ ParcelState.NSW then
    .usageError (strL "Parcel search is currently supported only for NSW")
  else
    let page := if page < 1 then 1 else page
    let pageSize := max 1 (min pageSize 50)
    let sanitized := _sanitize_search_term term
    if sanitized = [] then .emptyResult
    else
      let compactTerm := sanitized.filter (fun c => c ≠ ' ')
      let preciseClause : Option (List Char) :=
        match searchStructMatch compactTerm with
        | some (lotValue, sectionValue, planValue) =>
          let clauses :=
            (if lotValue ≠ [] then
              [strL "lotnumber = " ++ [qc] ++ lotValue ++ [qc]] else []) ++
            (match sectionValue with
             | some s =>
               if s ≠ [] then [strL "sectionnumber = " ++ [qc] ++ s ++ [qc]] else []
             | none => []) ++
            (if planValue ≠ [] then
              [strL "UPPER(planlabel) LIKE " ++ [qc] ++ planValue ++ strL "%" ++ [qc]]
             else [])
          if clauses ≠ [] then
            some (strL "(" ++ List.intercalate (strL " AND ") clauses ++ strL ")")
          else none
        | none => none
      let whereClause := match preciseClause with
        | some w => w
        | none =>
          let likeValue := sanitized.map (fun c => if c = ' ' then '%' else c)
          let pattern := strL "%" ++ likeValue ++ strL "%"
          strL "(" ++ List.intercalate (strL " OR ")
            (nswMapping.like_fields.map (fun f =>
              strL "UPPER(" ++ f ++ strL ") LIKE " ++ [qc] ++ pattern ++ [qc]))
            ++ strL ")"
      .request whereClause page pageSize ((page - 1) * pageSize)

end Arc

/-! ### Analysis definitions

Predicates and accessors used only to state properties of the embedded code. -/

/-- Every single-quote character occurs as part of an adjacent pair: the scanner
consumes quotes two at a time and rejects a lone one.  A string with this property
contributes no un-escaped quote when embedded between SQL string delimiters. -/
def quotesPaired : List Char → Bool
  | [] => true
  | c :: rest =>
    if c = qc then
      match rest with
      | [] => false
      | c2 :: rest2 => c2 = qc && quotesPaired rest2
    else quotesPaired rest

/-- Whether a per-fragment SA parse chose the title scheme (canonical id starts
with `SA:TITLE:`). -/
def isTitleResult : Except (List Char) ParsedParcel → Bool
  | .ok p => listIsPre (strL "SA:TITLE:") p.id
  | .error _ => false

/-- The cleaned fragment that `_normalise_title_ref` validates. -/
def titleCleaned (frag : List Char) : List Char :=
  pyStrip ((frag.map upChar).filter (fun c => c ≠ ' '))

/-- Whether a search plan step is the usage `ValueError`. -/
def isUsageError : Arc.SearchStep → Bool
  | .usageError _ => true
  | _ => false

/-- The pagination values of a `request` step. -/
def stepParams : Arc.SearchStep → Option (Int × Int × Int)
  | .request _ p q o => some (p, q, o)
  | _ => none

/-- Whether a search response handling raised `ArcGISError`. -/
def resIsError : Except Arc.ArcGISError (List Arc.SearchResult) → Bool
  | .error _ => true
  | .ok _ => false

/-- The code carried by a raised `ArcGISError` (`none` on success). -/
def resCode : Except Arc.ArcGISError (List Arc.SearchResult) → Option Int
  | .error e => e.code
  | .ok _ => none

/-- The message carried by a raised `ArcGISError` (`[]` on success). -/
def resMessage : Except Arc.ArcGISError (List Arc.SearchResult) → List Char
  | .error e => e.message
  | .ok _ => []

/-- The upstream message is carried by the raised error: when present and
nonempty, it is a prefix of the error's message. -/
def msgCarried (e : Arc.ErrorInfo) (r : Except Arc.ArcGISError (List Arc.SearchResult)) :
    Bool :=
  match e.message with
  | some m => m = [] || listIsPre m (resMessage r)
  | none => true

/-- The `id` property of a processed feature, when one was produced. -/
def processedIdOf (r : Option Arc.ProcessedFeature) : Option Arc.PVal :=
  r.bind (fun f => Arc.pGet f.props (strL "id"))

/-- The `area_ha` property of a processed feature, when one was produced. -/
def processedAreaOf (r : Option Arc.ProcessedFeature) : Option Arc.PVal :=
  r.bind (fun f => Arc.pGet f.props (strL "area_ha"))

/-- Every property key any state branch of `_process_feature` can write (the
configured field names of the four mappings plus the literal keys of the code). -/
def writtenKeys : List (List Char) :=
  [strL "lotidstring", strL "lotplan", strL "lotnumber", strL "sectionnumber",
   strL "section", strL "planlabel", strL "plan", strL "dcdb_id", strL "lot",
   strL "parcel_id", strL "title_ref", strL "display_title", strL "PARCEL_SPI",
   strL "parcel_spi", strL "PARCEL_LOT_NUMBER", strL "PARCEL_PLAN_NUMBER"]

/-! ### Concrete fixtures used by witnesses and counterexamples -/

/-- An area oracle that always fails (models a `pyproj`/`shapely` exception). -/
def areaFailOracle : Arc.Geometry → Except (List Char) Rat :=
  fun _ => .error (strL "area computation failed")

/-- Five QLD identifiers: with `max_ids_per_chunk = 2` they chunk into three
requests. -/
def c6Ids : List (List Char) :=
  [strL "1RP1", strL "2RP2", strL "3RP3", strL "4RP4", strL "5RP5"]

/-- Chunk responses: chunk 0 returns one polygon feature, chunk 1 fails on every
retry attempt, chunk 2 returns one feature without a geometry type. -/
def c6Fetch : Nat → Arc.FetchOutcome
  | 0 => .featuresOk [{ geometry := some { gtype := some (strL "Polygon") },
                        props := [(strL "lotplan", .s (strL "1RP1"))] }]
  | 1 => .failure
  | _ => .featuresOk [{ geometry := some { gtype := none },
                        props := [(strL "lotplan", .s (strL "5RP5"))] }]

/-- An upstream error payload carrying a code, a message and one detail. -/
def c8ErrInfo : Arc.ErrorInfo where
  code := some 400
  message := some (strL "Invalid query")
  details := [strL "detail one"]

/-- A search payload with the error member populated. -/
def c8ErrPayload : Arc.SearchPayload where
  errorField := some c8ErrInfo

/-- A search payload without an error member. -/
def c8OkPayload : Arc.SearchPayload where
  features := [[(strL "lotidstring", .s (strL "1//DP131118"))]]

/-- A raw feature that carries its own non-null `area_ha` attribute (and a
polygon geometry), used to exercise the property-passthrough override. -/
def c10Feature : Arc.RawFeature where
  geometry := some { gtype := some (strL "Polygon") }
  props := [(strL "lotplan", .s (strL "1RP1")), (strL "area_ha", .s (strL "5"))]

/-- A raw feature without a geometry. -/
def c10NoGeom : Arc.RawFeature where
  geometry := none
  props := [(strL "lotidstring", .s (strL "1//DP131118"))]

/-- A raw NSW feature whose server id does not normalize (`??` parses to no
lot/plan), with no `id` attribute of its own. -/
def c10BadId : Arc.RawFeature where
  geometry := some { gtype := some (strL "Polygon") }
  props := [(strL "lotidstring", .s (strL "??"))]

/-! ## Theorems

Helper lemmas first, then one theorem per claim (with its counterexample and
witness where applicable). -/

deriving instance DecidableEq for Except

set_option maxRecDepth 16384

/-- Each VIC line contributes exactly one entry to one of the two output lists. -/
theorem parseLinesVic_count (lines : List (List Char)) :
    (Vic.parseLinesVic lines).1.length + (Vic.parseLinesVic lines).2.length
      = lines.length := by
  induction lines with
  | nil => rfl
  | cons line rest ih =>
    simp only [Vic.parseLinesVic]
    cases h : Vic._normalise_spi line with
    | ok t =>
      obtain ⟨identifier, lot, plan⟩ := t
      simp only [List.length_cons]
      omega
    | error e =>
      simp only [List.length_cons]
      omega

/-- C1 (amended): for `parse_vic`, `len(valid) + len(malformed)` equals the number
of fragments (the nonempty stripped lines) for every input: each fragment yields
exactly one valid entry or exactly one `MalformedEntry`.  (For the other states
the equality fails: an NSW range fragment expands to several valid entries, and
QLD/SA suppress fragments whose canonical id was already seen.) -/
theorem c1_amended_vic_invariant (rawText : List Char) :
    (Vic.parse_vic rawText).1.length + (Vic.parse_vic rawText).2.length
      = (Vic.vicLines rawText).length :=
  parseLinesVic_count (Vic.vicLines rawText)

/-- C1 (counterexample): the single NSW fragment `1-3//DP131118` yields three
valid entries and no malformed entry, so `len(valid) + len(malformed) = 3 ≠ 1 =
number of fragments`. -/
theorem c1_counterexample :
    (parse_parcel_input .NSW (strL "1-3//DP131118")).1.length = 3
    ∧ (parse_parcel_input .NSW (strL "1-3//DP131118")).2.length = 0
    ∧ (Nsw.nswLines (strL "1-3//DP131118")).length = 1
    ∧ (3 : Nat) + 0 ≠ 1 := by
  refine ⟨by decide, by decide, by decide, by decide⟩

/-- C2 (counterexample): `normalize("CT6204/831")` yields the canonical id
`SA:TITLE:CT6204/831`, but re-normalizing that canonical id succeeds with the
*different* canonical id `SA:DCDB:SA:TITLE:CT6204831` (the colon-laden string
falls through the title pattern into the plan/lot heuristic), so SA title
canonicalization is not idempotent. -/
theorem c2_counterexample :
    ((Sa.parse_sa (strL "CT6204/831")).1.map (fun p => p.id)
        = [strL "SA:TITLE:CT6204/831"])
    ∧ ((Sa.parse_sa (strL "SA:TITLE:CT6204/831")).1.map (fun p => p.id)
        = [strL "SA:DCDB:SA:TITLE:CT6204831"])
    ∧ strL "SA:DCDB:SA:TITLE:CT6204831" ≠ strL "SA:TITLE:CT6204/831" := by
  refine ⟨by decide, by decide, by decide⟩

/-- C2 (amended): re-normalizing the canonical id reproduces the same id and
components for the NSW canonical forms, for VIC, and for the SA DCDB fixture; for
QLD the canonical id is reproduced but the extracted lot/plan components may
change (`1 RP 912949` extracts `(1, RP912949)` while its canonical id `1RP912949`
re-extracts `(1R, P912949)`); SA title canonical ids are not idempotent (see the
counterexample). -/
theorem c2_amended_idempotence_cases :
    -- NSW: a noisy variant and its canonical id normalize identically
    (Nsw._parse_fragment (strL "1/ /DP131118")
        = .ok (strL "1//DP131118", strL "1", none, strL "DP131118"))
    ∧ (Nsw._parse_fragment (strL "1//DP131118")
        = .ok (strL "1//DP131118", strL "1", none, strL "DP131118"))
    ∧ (Nsw._parse_fragment (strL "1/2//DP12345")
        = .ok (strL "1/2//DP12345", strL "1", some (strL "2"), strL "DP12345"))
    -- QLD: id idempotent, components not
    ∧ (Qld._parse_lotplan_fragment (strL "1 RP 912949")
        = some (strL "1RP912949", strL "1", strL "RP912949"))
    ∧ (Qld._parse_lotplan_fragment (strL "1RP912949")
        = some (strL "1RP912949", strL "1R", strL "P912949"))
    -- VIC: sentence variant and canonical id agree
    ∧ (Vic.normalize_vic_spi (strL "LOT 1 PS433970")
        = .ok (strL "1" ++ [bsl] ++ strL "PS433970", strL "1", strL "PS433970"))
    ∧ (Vic.normalize_vic_spi (strL "1" ++ [bsl] ++ strL "PS433970")
        = .ok (strL "1" ++ [bsl] ++ strL "PS433970", strL "1", strL "PS433970"))
    -- SA DCDB: the canonical id re-normalizes to itself with the same components
    ∧ ((Sa.saFragment (strL "D117877 A22")).map (fun p => (p.id, p.plan, p.lot))
        = .ok (strL "SA:DCDB:D117877A22", some (strL "D117877"), some (strL "A22")))
    ∧ ((Sa.saFragment (strL "SA:DCDB:D117877A22")).map (fun p => (p.id, p.plan, p.lot))
        = .ok (strL "SA:DCDB:D117877A22", some (strL "D117877"), some (strL "A22"))) := by
  refine ⟨by decide, by decide, by decide, by decide, by decide, by decide, by decide,
    by decide, by decide⟩

/-- C3 (code evaluated at the failing input): the noise-word glue substitution
`\b([A-Z]{2,})\s+(\d+)\b → \1\2` fuses `LOT 1` into the single token `LOT1`
before the noise filter runs, so `LOT 1 DP131118` canonicalizes to
`LOT1//DP131118` instead of `1//DP131118` (the repository's own unit test
`test_lot_token_format` expects `LOT 13 DP1242624 → 13//DP1242624`, which the
code maps to `LOT13//DP1242624`); the remaining fixtures of the claim hold. -/
theorem c3_code_eval :
    ((Nsw.parse_nsw (strL "LOT 1 DP131118")).1.map (fun p => p.id)
        = [strL "LOT1//DP131118"])
    ∧ ((Nsw.parse_nsw (strL "LOT 13 DP1242624")).1.map (fun p => p.id)
        = [strL "LOT13//DP1242624"])
    ∧ ((Nsw.parse_nsw (strL "1//DP131118")).1.map (fun p => p.id)
        = [strL "1//DP131118"])
    ∧ ((Nsw.parse_nsw (strL "1/ /DP131118")).1.map (fun p => p.id)
        = [strL "1//DP131118"])
    ∧ ((Qld.parse_qld (strL "1RP912949")).1.map (fun p => p.id)
        = [strL "1RP912949"])
    ∧ ((Qld.parse_qld (strL "1 RP 912949")).1.map (fun p => p.id)
        = [strL "1RP912949"])
    ∧ ((Qld.parse_qld (strL "Lot 1 on RP912949")).1.map (fun p => p.id)
        = [strL "1RP912949"])
    ∧ strL "LOT1//DP131118" ≠ strL "1//DP131118" := by
  refine ⟨by decide, by decide, by decide, by decide, by decide, by decide, by decide,
    by decide⟩

/-- C4 (code evaluated at the failing input): the positive fixtures hold
(`1-3//DP131118` expands to exactly the three ids in order; `1-250//DP1` is one
malformed entry and no valid results), but the guard `end - start > 200` admits
ranges of 201 lots: `1-201//DP1` expands to 201 valid identifiers, although the
code's own error message says `max 200 lots` and the repository's unit test
`test_range_too_large` expects even the 200-lot range `1-200//DP131118` to be
rejected. -/
theorem c4_code_eval :
    ((Nsw.parse_nsw (strL "1-3//DP131118")).1.map (fun p => p.id)
        = [strL "1//DP131118", strL "2//DP131118", strL "3//DP131118"])
    ∧ (Nsw.parse_nsw (strL "1-3//DP131118")).2 = []
    ∧ (Nsw.parse_nsw (strL "1-250//DP1")).1 = []
    ∧ ((Nsw.parse_nsw (strL "1-250//DP1")).2.map (fun m => m.error)
        = [strL "Range too large or invalid (max 200 lots)"])
    ∧ (Nsw.parse_nsw (strL "1-201//DP1")).1.length = 201
    ∧ (Nsw.parse_nsw (strL "1-201//DP1")).2 = []
    ∧ ((Nsw.parse_nsw (strL "1-200//DP131118")).1.length = 200
        ∧ (Nsw.parse_nsw (strL "1-200//DP131118")).2 = []) := by
  refine ⟨by decide, by decide, by decide, by decide, by decide, by decide,
    by decide, by decide⟩

/-- A list is a prefix of itself followed by anything. -/
theorem listIsPre_append (a b : List Char) : listIsPre a (a ++ b) = true := by
  induction a with
  | nil => rfl
  | cons c rest ih => simp [listIsPre, ih]

/-- `SA:TITLE:` is never a prefix of a DCDB canonical id (they differ at the
fourth character). -/
theorem title_not_pre_dcdb (x : List Char) :
    listIsPre (strL "SA:TITLE:") (strL "SA:DCDB:" ++ x) = false := rfl

/-- C5: SA scheme disambiguation.  `CT6204/831` parses to the title scheme with
canonical id `SA:TITLE:CT6204/831` (volume `CT6204`, folio `831`); `D117877 A22`
parses to the plan/lot scheme with canonical id `SA:DCDB:D117877A22`; and for
*every* fragment the title pattern is attempted first and is decisive: the
fragment is classified into the title scheme exactly when the cleaned fragment
matches the title-reference pattern, so no title-matching fragment is ever
classified as plan/lot and vice versa. -/
theorem c5_sa_scheme_disambiguation :
    (Sa.parse_sa (strL "CT6204/831")
      = ([{ id := strL "SA:TITLE:CT6204/831", state := .SA, raw := strL "CT6204/831",
            volume := some (strL "CT6204"), folio := some (strL "831") }], []))
    ∧ (Sa.parse_sa (strL "D117877 A22")
      = ([{ id := strL "SA:DCDB:D117877A22", state := .SA, raw := strL "D117877 A22",
            lot := some (strL "A22"), plan := some (strL "D117877") }], []))
    ∧ (∀ frag : List Char,
        Sa.titleRefPat (titleCleaned frag) = isTitleResult (Sa.saFragment frag)) := by
  refine ⟨by decide, by decide, ?_⟩
  intro frag
  unfold Sa.saFragment Sa._normalise_title_ref titleCleaned
  dsimp only
  split
  case h_1 titleRef volume folio h =>
    split at h
    case isTrue hC =>
      rw [hC]
      simp [isTitleResult, listIsPre_append]
    case isFalse hC => exact absurd h (by simp)
  case h_2 e h =>
    split at h
    case isTrue hC => exact absurd h (by simp)
    case isFalse hC =>
      rw [Bool.eq_false_iff.mpr hC]
      cases Sa._normalise_dcdb_id frag with
      | ok val =>
        obtain ⟨dcdbId, plan, lot⟩ := val
        simp [isTitleResult, title_not_pre_dcdb]
      | error e2 => simp [isTitleResult]

/-- The `query_features` chunk loop is the concatenation, in chunk order, of the
per-chunk contributions. -/
theorem query_features_go_eq_join (state : ParcelState) (fm : Arc.FieldMapping)
    (areaCalc : Arc.Geometry → Except (List Char) Rat)
    (fetch : Nat → Arc.FetchOutcome) (chunks : List (List (List Char))) :
    ∀ i : Nat,
      Arc.query_features_go state fm areaCalc fetch i chunks
        = List.flatten ((chunks.enumFrom i).map
            (fun p => Arc.chunk_contribution state fm areaCalc (fetch p.1) p.2)) := by
  induction chunks with
  | nil => intro i; rfl
  | cons chunk rest ih =>
    intro i
    by_cases hw : Arc.where_conditions chunk = []
    · simp [Arc.query_features_go, Arc.chunk_contribution, hw, ih]
    · cases hf : fetch i <;>
        simp [Arc.query_features_go, Arc.chunk_contribution, hw, hf, ih]

/-- C6: partial-failure resilience.  If the request for chunk `j` fails on every
retry attempt (`.failure`) or returns an upstream error payload
(`.errorPayload`), `query_features` still returns — it is a total function of the
response oracle — and its result is the concatenation, in chunk order, of the
processed features of all the other chunks, with chunk `j` contributing
nothing. -/
theorem c6_partial_failure (state : ParcelState) (fm : Arc.FieldMapping)
    (areaCalc : Arc.Geometry → Except (List Char) Rat) (maxIds : Nat)
    (ids : List (List Char)) (fetch : Nat → Arc.FetchOutcome) (j : Nat)
    (hj : fetch j = .failure ∨ fetch j = .errorPayload) :
    Arc.query_features state fm areaCalc maxIds ids fetch
      = List.flatten (((Arc.chunksOf maxIds ids).enumFrom 0).map
          (fun p => if p.1 = j then []
                    else Arc.chunk_contribution state fm areaCalc (fetch p.1) p.2)) := by
  unfold Arc.query_features
  rw [query_features_go_eq_join]
  congr 1
  apply List.map_congr_left
  intro p _
  by_cases h : p.1 = j
  · rw [if_pos h, h]
    rcases hj with hj | hj <;>
      · rw [hj]
        unfold Arc.chunk_contribution
        split <;> rfl
  · rw [if_neg h]

/-- C6 witness: five ids in chunks of two give three chunks; chunk 1 fails on all
retries, and the result is the concatenation of the contributions of chunks 0 and
2. -/
theorem c6_witness :
    (c6Fetch 1 = .failure ∨ c6Fetch 1 = .errorPayload)
    ∧ Arc.query_features .QLD Arc.qldMapping areaFailOracle 2 c6Ids c6Fetch
        = List.flatten (((Arc.chunksOf 2 c6Ids).enumFrom 0).map
            (fun p => if p.1 = 1 then []
                      else Arc.chunk_contribution .QLD Arc.qldMapping areaFailOracle
                        (c6Fetch p.1) p.2)) :=
  ⟨Or.inl rfl, c6_partial_failure .QLD Arc.qldMapping areaFailOracle 2 c6Ids c6Fetch 1
    (Or.inl rfl)⟩

/-- The `where_conditions` loop in closed form: the empty ids are dropped and
every remaining id is escaped and wrapped in single quotes. -/
theorem where_conditions_eq (chunk : List (List Char)) :
    Arc.where_conditions chunk
      = (chunk.filter (fun pid => pid ≠ [])).map
          (fun pid => [qc] ++ Arc.sqlEscape pid ++ [qc]) := by
  suffices h : ∀ acc : List (List Char),
      chunk.foldl
        (fun acc pid =>
          if pid = [] then acc else acc ++ [[qc] ++ Arc.sqlEscape pid ++ [qc]]) acc
        = acc ++ (chunk.filter (fun pid => pid ≠ [])).map
            (fun pid => [qc] ++ Arc.sqlEscape pid ++ [qc]) by
    simpa [Arc.where_conditions] using h []
  induction chunk with
  | nil => intro acc; simp
  | cons pid rest ih =>
    intro acc
    by_cases hp : pid = []
    · rw [List.foldl_cons, if_pos hp, ih]
      simp [List.filter_cons, hp]
    · rw [List.foldl_cons, if_neg hp, ih]
      simp [List.filter_cons, hp, List.append_assoc]

/-- Escaping doubles every quote, so the escaped identifier contains no lone
quote. -/
theorem quotesPaired_sqlEscape (s : List Char) :
    quotesPaired (Arc.sqlEscape s) = true := by
  induction s with
  | nil => rfl
  | cons c rest ih =>
    by_cases h : c = qc
    · have hs : Arc.sqlEscape (c :: rest) = qc :: qc :: Arc.sqlEscape rest := by
        simp [Arc.sqlEscape, h]
      rw [hs]
      simpa [quotesPaired] using ih
    · have hs : Arc.sqlEscape (c :: rest) = c :: Arc.sqlEscape rest := by
        simp [Arc.sqlEscape, h]
      rw [hs]
      have hq : quotesPaired (c :: Arc.sqlEscape rest)
          = quotesPaired (Arc.sqlEscape rest) := by
        conv_lhs => rw [quotesPaired.eq_def]
        simp [h]
      rw [hq]
      exact ih

/-- C7: SQL-quote escaping.  Every identifier embedded in a `WHERE … IN (…)`
clause — on the generic path and on the SA per-scheme path — passes through
`sqlEscape`, which doubles each single quote; the escaped text contains only
paired quotes, so no un-escaped quote from any input identifier reaches the
generated query string. -/
theorem c7_sql_escaping :
    (∀ s : List Char, quotesPaired (Arc.sqlEscape s) = true)
    ∧ (∀ (idField : List Char) (chunk : List (List Char)),
        Arc.build_where_clause idField chunk
          = idField ++ strL " IN ("
            ++ List.intercalate (strL ",")
                ((chunk.filter (fun pid => pid ≠ [])).map
                  (fun pid => [qc] ++ Arc.sqlEscape pid ++ [qc]))
            ++ strL ")")
    ∧ (∀ (fieldName : List Char) (chunk : List (List Char)),
        Arc.build_sa_where_clause fieldName chunk
          = strL "UPPER(" ++ fieldName ++ strL ") IN ("
            ++ List.intercalate (strL ",")
                (chunk.map (fun v => [qc] ++ Arc.sqlEscape v ++ [qc]))
            ++ strL ")") :=
  ⟨quotesPaired_sqlEscape,
   fun idField chunk => by rw [Arc.build_where_clause, where_conditions_eq],
   fun _ _ => rfl⟩

/-- C8: an upstream `error` payload makes `search_parcels` raise a typed
`ArcGISError` carrying the upstream error code exactly and the upstream message
as a prefix of the raised message (the code appends the truthy details after it),
never a partial result; a payload without an `error` member raises nothing. -/
theorem c8_upstream_error (fm : Arc.FieldMapping) (payload : Arc.SearchPayload) :
    (∀ e : Arc.ErrorInfo, payload.errorField = some e →
      resIsError (Arc.handle_search_payload fm payload) = true
      ∧ resCode (Arc.handle_search_payload fm payload) = e.code
      ∧ msgCarried e (Arc.handle_search_payload fm payload) = true)
    ∧ (payload.errorField = none →
      resIsError (Arc.handle_search_payload fm payload) = false) := by
  constructor
  · intro e he
    unfold Arc.handle_search_payload
    rw [he]
    refine ⟨rfl, rfl, ?_⟩
    unfold msgCarried resMessage
    cases hm : e.message with
    | none => rfl
    | some m =>
      by_cases hmn : m = []
      · simp [hmn]
      · have hself : listIsPre m m = true := by
          simpa using listIsPre_append m []
        simp only [hm]
        rw [if_pos hmn]
        split <;> simp [hmn, hself, listIsPre_append]
  · intro he
    unfold Arc.handle_search_payload
    rw [he]
    rfl

/-- C8 witness: a concrete error payload (code 400, message and one detail)
raises, carrying the code and the message; a concrete error-free payload does not
raise. -/
theorem c8_witness :
    resIsError (Arc.handle_search_payload Arc.nswMapping c8ErrPayload) = true
    ∧ resCode (Arc.handle_search_payload Arc.nswMapping c8ErrPayload) = some 400
    ∧ msgCarried c8ErrInfo (Arc.handle_search_payload Arc.nswMapping c8ErrPayload) = true
    ∧ resIsError (Arc.handle_search_payload Arc.nswMapping c8OkPayload) = false :=
  ⟨((c8_upstream_error Arc.nswMapping c8ErrPayload).1 c8ErrInfo rfl).1,
   ((c8_upstream_error Arc.nswMapping c8ErrPayload).1 c8ErrInfo rfl).2.1,
   ((c8_upstream_error Arc.nswMapping c8ErrPayload).1 c8ErrInfo rfl).2.2,
   (c8_upstream_error Arc.nswMapping c8OkPayload).2 rfl⟩

/-- C9 (counterexample): with `page = 0` and `pageSize = 100` — both outside the
claimed valid bounds — `search_parcels` raises nothing: the body clamps the
values and issues the request with `page = 1`, `pageSize = 50`, `offset = 0`. -/
theorem c9_counterexample :
    isUsageError (Arc.search_parcels_plan .NSW (strL "DP131118") 0 100) = false
    ∧ stepParams (Arc.search_parcels_plan .NSW (strL "DP131118") 0 100)
        = some (1, 50, 0) := by
  refine ⟨by decide, by decide⟩

/-- C9 (amended): a state other than NSW raises the usage `ValueError` before any
HTTP request is issued; invalid page/page-size values never raise — for NSW no
usage error is possible, `page < 1` is clamped to `1`, `pageSize` is clamped into
`1..50`, and the request (when the sanitized term is nonempty) uses the clamped
values and the offset `(page - 1) * pageSize` computed from them. -/
theorem c9_amended_validation :
    (∀ (st : ParcelState) (term : List Char) (page pageSize : Int), st ≠ .NSW →
      Arc.search_parcels_plan st term page pageSize
        = .usageError (strL "Parcel search is currently supported only for NSW"))
    ∧ (∀ (term : List Char) (page pageSize : Int),
        isUsageError (Arc.search_parcels_plan .NSW term page pageSize) = false)
    ∧ (∀ (term : List Char) (page pageSize : Int),
        Arc.search_parcels_plan .NSW term page pageSize = .emptyResult
        ∨ stepParams (Arc.search_parcels_plan .NSW term page pageSize)
            = some (if page < 1 then 1 else page, max 1 (min pageSize 50),
                    ((if page < 1 then 1 else page) - 1) * max 1 (min pageSize 50))) := by
  refine ⟨?_, ?_, ?_⟩
  · intro st term page ps hst
    unfold Arc.search_parcels_plan
    rw [if_pos hst]
  · intro term page ps
    unfold Arc.search_parcels_plan
    rw [if_neg (by simp)]
    dsimp only
    split
    · rfl
    · rfl
  · intro term page ps
    unfold Arc.search_parcels_plan
    rw [if_neg (by simp)]
    dsimp only
    split
    · exact Or.inl rfl
    · exact Or.inr rfl

/-- C9 witness: the non-NSW usage error and the NSW clamping facts at concrete
inputs. -/
theorem c9_witness :
    (Arc.search_parcels_plan .QLD (strL "DP1") 2 10
        = .usageError (strL "Parcel search is currently supported only for NSW"))
    ∧ isUsageError (Arc.search_parcels_plan .NSW (strL "DP131118") 0 100) = false
    ∧ (Arc.search_parcels_plan .NSW (strL "DP131118") 0 100 = .emptyResult
        ∨ stepParams (Arc.search_parcels_plan .NSW (strL "DP131118") 0 100)
            = some (if (0 : Int) < 1 then 1 else 0, max 1 (min 100 50),
                    ((if (0 : Int) < 1 then 1 else 0) - 1) * max 1 (min 100 50))) :=
  ⟨c9_amended_validation.1 .QLD (strL "DP1") 2 10 (by decide),
   c9_amended_validation.2.1 (strL "DP131118") 0 100,
   c9_amended_validation.2.2 (strL "DP131118") 0 100⟩

/-- Rewriting an existing key in place does not change the lookup of a different
key. -/
theorem pGet_map_ne (d : Arc.PDict) (kq k : List Char) (v : Arc.PVal)
    (h : kq ≠ k) :
    Arc.pGet (d.map (fun kv => if kv.1 = kq then (kq, v) else kv)) k
      = Arc.pGet d k := by
  induction d with
  | nil => rfl
  | cons kv rest ih =>
    simp only [List.map_cons]
    unfold Arc.pGet
    by_cases hk : kv.1 = kq
    · rw [if_pos hk]
      rw [List.find?_cons_of_neg _ (by simp [h]),
        List.find?_cons_of_neg _ (by simp [hk, h])]
      simpa [Arc.pGet] using ih
    · rw [if_neg hk]
      by_cases hkk : kv.1 = k
      · rw [List.find?_cons_of_pos _ (by simp [hkk]),
          List.find?_cons_of_pos _ (by simp [hkk])]
      · rw [List.find?_cons_of_neg _ (by simp [hkk]),
          List.find?_cons_of_neg _ (by simp [hkk])]
        simpa [Arc.pGet] using ih

/-- Appending a binding for a different key does not change a lookup. -/
theorem pGet_append_ne (d : Arc.PDict) (kq k : List Char) (v : Arc.PVal)
    (h : kq ≠ k) :
    Arc.pGet (d ++ [(kq, v)]) k = Arc.pGet d k := by
  induction d with
  | nil =>
    unfold Arc.pGet
    rw [List.nil_append, List.find?_cons_of_neg _ (by simp [h])]
  | cons kv rest ih =>
    unfold Arc.pGet
    rw [List.cons_append]
    by_cases hkk : kv.1 = k
    · rw [List.find?_cons_of_pos _ (by simp [hkk]),
        List.find?_cons_of_pos _ (by simp [hkk])]
    · rw [List.find?_cons_of_neg _ (by simp [hkk]),
        List.find?_cons_of_neg _ (by simp [hkk])]
      simpa [Arc.pGet] using ih

/-- A `dict` assignment to a different key does not change a lookup. -/
theorem pGet_pSet_ne (d : Arc.PDict) (kq k : List Char) (v : Arc.PVal)
    (h : kq ≠ k) :
    Arc.pGet (Arc.pSet d kq v) k = Arc.pGet d k := by
  unfold Arc.pSet
  split
  · exact pGet_map_ne d kq k v h
  · exact pGet_append_ne d kq k v h

/-- `pSet` preserves "no binding for key `k`" when writing a different key. -/
theorem allNe_pSet (d : Arc.PDict) (kq k : List Char) (v : Arc.PVal)
    (hd : d.all (fun kv => kv.1 ≠ k) = true) (h : kq ≠ k) :
    (Arc.pSet d kq v).all (fun kv => kv.1 ≠ k) = true := by
  unfold Arc.pSet
  split
  · rw [List.all_map]
    refine List.all_eq_true.mpr ?_
    intro kv hkv
    have hx := List.all_eq_true.mp hd kv hkv
    by_cases hk : kv.1 = kq
    · simp [Function.comp, hk, h]
    · simp only [Function.comp]
      simpa [hk] using hx
  · rw [List.all_append]
    simp only [Bool.and_eq_true]
    exact ⟨hd, by simp [h]⟩

/-- `pSetdefault` preserves "no binding for key `k`" when writing a different
key. -/
theorem allNe_pSetdefault (d : Arc.PDict) (kq k : List Char) (v : Arc.PVal)
    (hd : d.all (fun kv => kv.1 ≠ k) = true) (h : kq ≠ k) :
    (Arc.pSetdefault d kq v).all (fun kv => kv.1 ≠ k) = true := by
  unfold Arc.pSetdefault
  split
  · exact hd
  · rw [List.all_append]
    simp only [Bool.and_eq_true]
    exact ⟨hd, by simp [h]⟩

/-- Folding `pSet` over bindings that avoid key `k` leaves the lookup of `k` at
its base value. -/
theorem pGet_foldl_pSet (kvs : Arc.PDict) (base : Arc.PDict) (k : List Char)
    (h : kvs.all (fun kv => kv.1 ≠ k) = true) :
    Arc.pGet (kvs.foldl (fun d kv => Arc.pSet d kv.1 kv.2) base) k
      = Arc.pGet base k := by
  induction kvs generalizing base with
  | nil => rfl
  | cons kv rest ih =>
    simp only [List.all_cons, Bool.and_eq_true] at h
    rw [List.foldl_cons, ih _ h.2, pGet_pSet_ne _ _ _ _ (by simpa using h.1)]

/-- Dropping the null bindings preserves "no binding for key `k`". -/
theorem allNe_filter (props : Arc.PDict) (k : List Char)
    (h : props.all (fun kv => kv.1 ≠ k) = true) :
    (props.filter (fun kv => kv.2 ≠ Arc.PVal.null)).all (fun kv => kv.1 ≠ k)
      = true := by
  refine List.all_eq_true.mpr ?_
  intro kv hkv
  exact List.all_eq_true.mp h kv (List.mem_of_mem_filter hkv)

/-- `saTitleStep` only writes `title_ref` and `display_title`. -/
theorem saTitleStep_allNe (fid0 name0 : Arc.PVal) (props0 : Arc.PDict)
    (titleRefValue : Option Arc.PVal) (k : List Char)
    (hp : props0.all (fun kv => kv.1 ≠ k) = true)
    (hk : ∀ w ∈ writtenKeys, w ≠ k) :
    ((Arc.saTitleStep fid0 name0 props0 titleRefValue).2.2).all
      (fun kv => kv.1 ≠ k) = true := by
  unfold Arc.saTitleStep
  repeat' first
    | exact hp
    | exact hk _ (by simp [writtenKeys])
    | apply allNe_pSet
    | apply allNe_pSetdefault
    | split

/-- `saParcelIdStep` only writes `parcel_id`, `plan`, `lot` and the
`saTitleStep` keys. -/
theorem saParcelIdStep_allNe (fid0 name0 : Arc.PVal) (props0 : Arc.PDict)
    (parcelIdValue : Arc.PVal) (titleRefValue : Option Arc.PVal) (k : List Char)
    (hp : props0.all (fun kv => kv.1 ≠ k) = true)
    (hk : ∀ w ∈ writtenKeys, w ≠ k) :
    ((Arc.saParcelIdStep fid0 name0 props0 parcelIdValue titleRefValue).2.2).all
      (fun kv => kv.1 ≠ k) = true := by
  unfold Arc.saParcelIdStep
  repeat' first
    | exact hp
    | exact saTitleStep_allNe fid0 name0 props0 titleRefValue k hp hk
    | exact hk _ (by simp [writtenKeys])
    | apply allNe_pSet
    | apply allNe_pSetdefault
    | dsimp only
    | split

/-- The state branch of `_process_feature` (run with the state's configured field
mapping) only ever writes the keys in `writtenKeys`, so it preserves "no binding
for key `k`" for any other key. -/
theorem stateBranch_allNe (state : ParcelState) (fid0 name0 : Arc.PVal)
    (props0 : Arc.PDict) (k : List Char)
    (hp : props0.all (fun kv => kv.1 ≠ k) = true)
    (hk : ∀ w ∈ writtenKeys, w ≠ k) :
    ((Arc.stateBranch state (Arc.mappingFor state) fid0 name0 props0).2.2).all
      (fun kv => kv.1 ≠ k) = true := by
  cases state with
  | NSW =>
    cases fid0 with
    | s v =>
      simp only [Arc.stateBranch, Arc.mappingFor, Arc.nswMapping]
      cases Nsw.normalize_nsw_identifier v with
      | ok t =>
        obtain ⟨canonical, lot, sect, plan⟩ := t
        cases sect <;>
          · dsimp only
            repeat' first
              | exact hp
              | exact hk _ (by simp [writtenKeys])
              | apply allNe_pSet
              | apply allNe_pSetdefault
              | split
      | error e => exact hp
    | num v => exact hp
    | flt v => exact hp
    | null => exact hp
  | QLD => exact hp
  | SA =>
    simp only [Arc.stateBranch]
    cases hdv : Arc.pGet props0 (strL "dcdb_id") with
    | none =>
      exact saParcelIdStep_allNe _ _ _ _ _ k hp hk
    | some pv =>
      cases pv with
      | s d =>
        dsimp only
        by_cases hd : pyStrip d ≠ []
        · rw [if_pos hd]
          dsimp only
          cases Arc.arcDcdbMatch ((d.map upChar).filter (fun c => c ≠ ' ')) with
          | none =>
            exact allNe_pSet _ _ _ _ hp (hk _ (by simp [writtenKeys]))
          | some pl =>
            obtain ⟨pl1, lo1⟩ := pl
            dsimp only
            apply allNe_pSetdefault
            · apply allNe_pSetdefault
              · exact allNe_pSet _ _ _ _ hp (hk _ (by simp [writtenKeys]))
              · exact hk _ (by simp [writtenKeys])
            · exact hk _ (by simp [writtenKeys])
        · rw [if_neg hd]
          exact saParcelIdStep_allNe _ _ _ _ _ k hp hk
      | num n => exact saParcelIdStep_allNe _ _ _ _ _ k hp hk
      | flt q => exact saParcelIdStep_allNe _ _ _ _ _ k hp hk
      | null => exact saParcelIdStep_allNe _ _ _ _ _ k hp hk
  | VIC =>
    cases fid0 with
    | s v =>
      simp only [Arc.stateBranch, Arc.mappingFor, Arc.vicMapping]
      cases Vic.normalize_vic_spi v with
      | ok t =>
        obtain ⟨canonical, lot, plan⟩ := t
        dsimp only
        repeat' first
          | exact hp
          | exact hk _ (by simp [writtenKeys])
          | apply allNe_pSet
      | error e => exact hp
    | num v => exact hp
    | flt v => exact hp
    | null => exact hp

/-- A lookup skips a head binding with a different key. -/
theorem pGet_cons_ne (k1 : List Char) (v : Arc.PVal) (d : Arc.PDict)
    (k : List Char) (h : k1 ≠ k) :
    Arc.pGet ((k1, v) :: d) k = Arc.pGet d k := by
  unfold Arc.pGet
  rw [List.find?_cons_of_neg _ (by simp [h])]

/-- A lookup returns the head binding when the key matches. -/
theorem pGet_cons_eq (k1 : List Char) (v : Arc.PVal) (d : Arc.PDict)
    (k : List Char) (h : k1 = k) :
    Arc.pGet ((k1, v) :: d) k = some v := by
  unfold Arc.pGet
  rw [List.find?_cons_of_pos _ (by simp [h])]
  rfl

/-- C10 (amended): `_process_feature` is total — it returns `some` standardized
feature exactly when the raw feature has a geometry, and `none` otherwise, never
propagating an error.  When the NSW server id fails to re-normalize, the returned
`id` property is the raw server id; when the geodesic-area oracle fails on a
(Multi)Polygon, the returned `area_ha` property is `null` — in both cases
provided the raw attributes do not themselves carry an `id` / `area_ha` key,
since non-null raw attributes are passed through *after* the standardized fields
and overwrite them (see the counterexample). -/
theorem c10_amended_process_feature :
    (∀ (state : ParcelState) (fm : Arc.FieldMapping)
        (areaCalc : Arc.Geometry → Except (List Char) Rat)
        (feature : Arc.RawFeature),
      feature.geometry = none → Arc._process_feature state fm areaCalc feature = none)
    ∧ (∀ (state : ParcelState) (fm : Arc.FieldMapping)
        (areaCalc : Arc.Geometry → Except (List Char) Rat)
        (feature : Arc.RawFeature),
        (Arc._process_feature state fm areaCalc feature).isSome
          = feature.geometry.isSome)
    ∧ (∀ (areaCalc : Arc.Geometry → Except (List Char) Rat)
        (feature : Arc.RawFeature) (g : Arc.Geometry) (v e : List Char),
        feature.geometry = some g →
        Arc.pGet feature.props (strL "lotidstring") = some (.s v) →
        Nsw.normalize_nsw_identifier v = .error e →
        feature.props.all (fun kv => kv.1 ≠ strL "id") = true →
        processedIdOf (Arc._process_feature .NSW Arc.nswMapping areaCalc feature)
          = some (.s v))
    ∧ (∀ (state : ParcelState)
        (areaCalc : Arc.Geometry → Except (List Char) Rat)
        (feature : Arc.RawFeature) (g : Arc.Geometry) (msg : List Char),
        feature.geometry = some g →
        (g.gtype = some (strL "Polygon") ∨ g.gtype = some (strL "MultiPolygon")) →
        areaCalc g = .error msg →
        feature.props.all (fun kv => kv.1 ≠ strL "area_ha") = true →
        processedAreaOf
          (Arc._process_feature state (Arc.mappingFor state) areaCalc feature)
          = some .null) := by
  refine ⟨?_, ?_, ?_, ?_⟩
  · intro state fm areaCalc feature hg
    unfold Arc._process_feature
    rw [hg]
  · intro state fm areaCalc feature
    cases hg : feature.geometry with
    | none =>
      unfold Arc._process_feature
      rw [hg]
      rfl
    | some g =>
      unfold Arc._process_feature
      rw [hg]
      rfl
  · intro areaCalc feature g v e hg hid hner hprops
    unfold Arc._process_feature
    rw [hg]
    dsimp only
    have hid2 : Arc.pGet feature.props Arc.nswMapping.id_field = some (.s v) := hid
    rw [hid2]
    dsimp only
    unfold Arc.stateBranch
    dsimp only
    rw [hner]
    dsimp only
    unfold processedIdOf
    dsimp only [Option.bind]
    rw [pGet_foldl_pSet _ _ _ (allNe_filter _ _ hprops)]
    rfl
  · intro state areaCalc feature g msg hg hpoly herr hprops
    unfold Arc._process_feature
    rw [hg]
    dsimp only
    unfold processedAreaOf
    dsimp only [Option.bind]
    rw [pGet_foldl_pSet _ _ _
      (allNe_filter _ _ (stateBranch_allNe state _ _ _ _ hprops (by decide)))]
    have hcond : (g.gtype = some (strL "Polygon")
        || g.gtype = some (strL "MultiPolygon")) = true := by
      rcases hpoly with h | h <;> simp [h]
    rw [if_pos hcond, herr]
    rw [pGet_cons_ne _ _ _ _ (by decide), pGet_cons_ne _ _ _ _ (by decide),
      pGet_cons_ne _ _ _ _ (by decide), pGet_cons_eq _ _ _ _ (by decide)]

/-- C10 (counterexample): with a failing area oracle and a raw feature that
carries its own non-null `area_ha` attribute (string `"5"`), the returned feature
has `area_ha = "5"`, not `null` — the raw-attribute passthrough overwrites the
standardized `area_ha` — so "a failure while computing geodesic area leaves
`area_ha` as `None` in the returned feature" is false as stated. -/
theorem c10_counterexample :
    areaFailOracle { gtype := some (strL "Polygon") }
        = .error (strL "area computation failed")
    ∧ processedAreaOf
        (Arc._process_feature .QLD Arc.qldMapping areaFailOracle c10Feature)
        = some (.s (strL "5"))
    ∧ some (Arc.PVal.s (strL "5")) ≠ some Arc.PVal.null := by
  refine ⟨rfl, by decide, by decide⟩

/-- C10 witness: the amended theorem applied to concrete features — a feature
without geometry (dropped), one with geometry (kept), an NSW feature whose
server id `??` does not normalize (raw id preserved), and a polygon feature with
a failing area oracle (null `area_ha`). -/
theorem c10_witness :
    Arc._process_feature .QLD Arc.qldMapping areaFailOracle c10NoGeom = none
    ∧ (Arc._process_feature .QLD Arc.qldMapping areaFailOracle c10Feature).isSome
        = c10Feature.geometry.isSome
    ∧ processedIdOf (Arc._process_feature .NSW Arc.nswMapping areaFailOracle c10BadId)
        = some (.s (strL "??"))
    ∧ processedAreaOf
        (Arc._process_feature .QLD (Arc.mappingFor .QLD) areaFailOracle c10BadId)
        = some .null :=
  ⟨c10_amended_process_feature.1 .QLD Arc.qldMapping areaFailOracle c10NoGeom rfl,
   c10_amended_process_feature.2.1 .QLD Arc.qldMapping areaFailOracle c10Feature,
   c10_amended_process_feature.2.2.1 areaFailOracle c10BadId
     { gtype := some (strL "Polygon") } (strL "??") (strL "Missing NSW lot value")
     rfl (by decide) (by decide) (by decide),
   c10_amended_process_feature.2.2.2 .QLD areaFailOracle c10BadId
     { gtype := some (strL "Polygon") } (strL "area computation failed")
     rfl (Or.inl rfl) rfl (by decide)⟩

end Cadastre
